import Mathlib

/-!
# SpineML neuron model generator (`src/spineml/generator/neuronModel.cc`)

A shallow embedding of `ObjectHandlerNeuronCondition` (the spike condition
handler with `onObject` and `getThresholdCode`) and of the constructor
`SpineMLGenerator::NeuronModel::NeuronModel` (loader, port loops, traversal,
alias resolution, hand-over to `processModelVariables`).

Conventions
* `unsigned int` regime ids are natural numbers; no arithmetic is done on them,
  they are only compared, used as map keys and printed in decimal.
* `std::map<K, V>` is the list of its entries in iteration order (strictly
  increasing keys); `insert` is `StdMap.insert`, which like the C++ one does
  nothing when the key is present and reports whether it inserted.
* `throw std::runtime_error(msg)` is `Except.error e`, with one constructor of
  `Error` per throw site; `Error.what` gives the message text of the source.
* Code of the repository that is not in the translated file (XML queries, the
  automaton traversal, the base handlers, the variable partitioner) is passed
  in as a parameter, see `Collaborators`.
-/

namespace SpineMLGenerator

/-! ## Exceptions -/

/-- The `std::runtime_error`s thrown in `neuronModel.cc`, one constructor per
throw site, named after the error taxonomy of the specification. -/
inductive Error where
  /-- line 111: `doc.load_file` failed -/
  | LoadError (url description : String)
  /-- line 117: no root `SpineML` node -/
  | SchemaErrorRoot (url : String)
  /-- line 123: `ComponentClass` missing or not of type `neuron_body` -/
  | SchemaErrorComponent (url : String)
  /-- lines 159, 174, 190: unsupported port; `loop` is the word the message
  uses for the port class (`send` on line 159, `reduce` on lines 174 and 190) -/
  | UnsupportedPortError (nodeType loop : String)
  /-- line 155: a second event send port -/
  | UnsupportedFeatureError
  /-- line 56: second spike trigger for a regime -/
  | DuplicateTriggerError
  /-- line 83: single regime but several recorded thresholds -/
  | ConsolidationError
  /-- an exception thrown by code outside `neuronModel.cc` -/
  | External (what : String)
  deriving DecidableEq, Repr

/-- The `what()` text of each exception, as written in the source. -/
def Error.what : Error → String
  | .LoadError url description => "Could not open file:" ++ url ++ ", error:" ++ description
  | .SchemaErrorRoot url =>
      "XML file:" ++ url ++ " is not a SpineML component - it has no root SpineML node"
  | .SchemaErrorComponent url =>
      "XML file:" ++ url ++ " is not a SpineML \x27neuron_body\x27 component - " ++
        "it\x27s ComponentClass node is either missing or of the incorrect type"
  | .UnsupportedPortError nodeType loop =>
      "GeNN does not support \x27" ++ nodeType ++ "\x27 " ++ loop ++ " ports in neuron models"
  | .UnsupportedFeatureError => "Spike-like event sending not currently implemented"
  | .DuplicateTriggerError => "Only one spike trigger is supported per regime"
  | .ConsolidationError =>
      "Multiple regimes have not been found but there are thresholds specified for different regimes"
  | .External what => what

/-- Whether an exception is one of the three unsupported-port throws. -/
def Error.isUnsupportedPortError : Error → Bool
  | .UnsupportedPortError _ _ => true
  | _ => false

deriving instance DecidableEq for Except

/-! ## `std::map` and `std::set` -/

/-- Entries of a `std::map<κ, V>` in iteration order. -/
abbrev StdMap (κ V : Type) := List (κ × V)

/-- The class invariant of `std::map`: keys strictly increasing. -/
def StdMap.Valid {κ V : Type} [LinearOrder κ] (m : StdMap κ V) : Prop :=
  m.Pairwise (fun a b => a.1 < b.1)

/-- The call `std::map::insert(std::make_pair(k, v))`: the map afterwards and the
`.second` of the returned pair (`true` when the entry was inserted, `false`
when an entry with an equivalent key was already there, the map being left as
it was). -/
def StdMap.insert {κ V : Type} [LinearOrder κ] : StdMap κ V → κ → V → StdMap κ V × Bool
  | [], k, v => ([(k, v)], true)
  | (k', v') :: t, k, v =>
      if k < k' then ((k, v) :: (k', v') :: t, true)
      else if k' < k then ((k', v') :: (StdMap.insert t k v).1, (StdMap.insert t k v).2)
      else ((k', v') :: t, false)

/-- The keys of a map, in iteration order. -/
def StdMap.keys {κ V : Type} (m : StdMap κ V) : List κ :=
  m.map Prod.fst

/-- A `std::set<κ>`: its elements in iteration order, kept as a map to `Unit`. -/
abbrev StdSet (κ : Type) := StdMap κ Unit

/-- The call `std::set::insert(k)`, the set afterwards. -/
def StdSet.insert {κ : Type} [LinearOrder κ] (s : StdSet κ) (k : κ) : StdSet κ :=
  (StdMap.insert s k ()).1

/-- Modelled from the spec: the class `CodeStream` (declared in `objectHandler.h`,
not part of the translated file) is the "append-only text buffer" of the
specification, section 6: the text written so far; `operator<<` appends and
`str()` returns the text. -/
abbrev CodeStream := String

/-! ## `ObjectHandlerNeuronCondition` -/

/-- What `onObject` reads of a condition node (`pugi::xml_node`): the `port`
attributes of its `EventOut` children and the text of `Trigger/MathInline`. -/
structure ConditionNode where
  eventOutPorts : List String
  triggerCode : String
  deriving DecidableEq, Repr

/-- The members of `ObjectHandlerNeuronCondition` (lines 97-98). -/
structure ObjectHandlerNeuronCondition where
  m_RegimeThresholds : StdMap Nat String
  m_SendPortSpike : String
  deriving DecidableEq, Repr

/-- The method `onObject` (lines 39-59). `superOnObject` is the base class
`ObjectHandler::Condition::onObject`, which works on the code stream. The
result is the outcome of the call (the code stream on normal return, the
exception otherwise) together with the members of the handler after the call,
also when it threw. -/
def ObjectHandlerNeuronCondition.onObject
    (superOnObject : ConditionNode → Nat → Nat → CodeStream → Except Error CodeStream)
    (self : ObjectHandlerNeuronCondition) (codeStream : CodeStream)
    (node : ConditionNode) (currentRegimeID targetRegimeID : Nat) :
    Except Error CodeStream × ObjectHandlerNeuronCondition :=
  match superOnObject node currentRegimeID targetRegimeID codeStream with
  | .error e => (.error e, self)
  | .ok codeStream' =>
      -- `node.select_node("EventOut[@port=$portName]")`
      if self.m_SendPortSpike ∈ node.eventOutPorts then
        let inserted := StdMap.insert self.m_RegimeThresholds currentRegimeID node.triggerCode
        if !inserted.2 then
          (.error .DuplicateTriggerError, { self with m_RegimeThresholds := inserted.1 })
        else
          (.ok codeStream', { self with m_RegimeThresholds := inserted.1 })
      else (.ok codeStream', self)

/-- One pass of the loop body of lines 70-78 on the text written so far:
`" || "` is written first when `tellp() > 0`, that is when some text has been
written, then the regime test with the id in decimal. -/
def thresholdLoopBody (stream : String) (r : Nat × String) : String :=
  (if stream.length > 0 then stream ++ " || " else stream) ++
    ("(_regimeID == " ++ toString r.1 ++ " && (" ++ r.2 ++ "))")

/-- The method `getThresholdCode(bool multipleRegimes)` (lines 64-91). -/
def ObjectHandlerNeuronCondition.getThresholdCode
    (self : ObjectHandlerNeuronCondition) (multipleRegimes : Bool) : Except Error String :=
  if multipleRegimes then
    .ok (self.m_RegimeThresholds.foldl thresholdLoopBody "")
  else
    match self.m_RegimeThresholds with
    | [] => .ok ""
    | first :: rest =>
        if (first :: rest).length > 1 then .error .ConsolidationError
        else .ok ("(" ++ first.2 ++ ")")

/-! ## The constructor `NeuronModel::NeuronModel` -/

/-- What the port loops read of an XML element: `node().name()`,
`attribute("name").value()` and `attribute("reduce_op").value()`; a missing
attribute reads as the empty string. -/
structure PortNode where
  nodeType : String
  portName : String
  reduce_op : String
  deriving DecidableEq, Repr

/-- The `ComponentClass` element: its `type` attribute and the elements the
three port queries range over, in document order. -/
structure ComponentClass where
  type : String
  children : List PortNode
  deriving DecidableEq, Repr

/-- The root `SpineML` element with its `ComponentClass` child, if any. -/
structure SpineMLNode where
  componentClass : Option ComponentClass
  deriving DecidableEq, Repr

/-- A parsed document with its `SpineML` child, if any. -/
structure XmlDocument where
  spineML : Option SpineMLNode
  deriving DecidableEq, Repr

/-- What the constructor reads of `ModelParams::Neuron`. -/
structure ModelParams.Neuron where
  url : String
  variableParams : StdSet String
  deriving DecidableEq, Repr

/-- A callback made by the automaton traversal `generateModelCode`. -/
inductive Visit where
  /-- the call `objectHandlerCondition.onObject(node, currentRegimeID, targetRegimeID)` -/
  | condition (node : ConditionNode) (currentRegimeID targetRegimeID : Nat)
  /-- the call `objectHandlerTimeDerivative.onObject(node, currentRegimeID)` -/
  | timeDerivative (node : String) (currentRegimeID : Nat)
  /-- the call `regimeEndFunc(multipleRegimes, currentRegimeID)` -/
  | regimeEnd (multipleRegimes : Bool) (currentRegimeID : Nat)
  deriving DecidableEq, Repr

/-- The code the constructor calls that is not in `neuronModel.cc`, as it
behaves on the component being built. -/
structure Collaborators where
  /-- the call `findAlias(componentClass, portName, aliasCode)`: the alias code when
  an `Alias` element matches the port name -/
  findAlias : String → Option String
  /-- the callbacks `generateModelCode` makes, in order -/
  visits : List Visit
  /-- what `generateModelCode` does after its last callback: returns
  `multipleRegimes` or throws -/
  traversalResult : Except Error Bool
  /-- the base class method `ObjectHandler::Condition::onObject` -/
  conditionOnObject : ConditionNode → Nat → Nat → CodeStream → Except Error CodeStream
  /-- the method `ObjectHandler::TimeDerivative::onObject` -/
  timeDerivativeOnObject : String → Nat → CodeStream → Except Error CodeStream
  /-- the method `CodeStream::onRegimeEnd` -/
  onRegimeEnd : Bool → Nat → CodeStream → CodeStream
  /-- the call `processModelVariables(componentClass, variableParams, multipleRegimes,
  codeStrings)`: parameter names, variables and the two rewritten code strings -/
  processModelVariables : StdSet String → Bool → String → String →
    Except Error (List String × List String × String × String)

/-- Modelled from the spec: the query
`componentClass.select_nodes(SpineMLUtils::xPathNodeHasSuffix(suffix))`, whose
path expression is declared in `spineMLUtils.h` and not part of the translated
file, is the "lookup of elements by tag-name suffix match" of the
specification, section 6: the elements whose name ends in `suffix`, in
document order. -/
def selectNodesHasSuffix (suffix : String) (children : List PortNode) : List PortNode :=
  children.filter (fun n => suffix.data.isSuffixOf n.nodeType.data)

/-- The members and locals the port loops of lines 127-192 write:
`sendPortAliases` is the `std::map` of line 129, `m_SendPortVariables` a
`std::set` of names (line 145), `m_AdditionalInputVars` a vector of
`(name, (type, value))` pairs (lines 171 and 187). -/
structure PortClassification where
  sendPortAliases : StdMap String String
  m_SendPortVariables : StdSet String
  m_SendPortSpike : String
  m_SendPortSpikeLikeEvent : String
  m_AdditionalInputVars : List (String × String × Int)
  deriving DecidableEq, Repr

/-- The state before the first loop: empty containers and strings. -/
def PortClassification.init : PortClassification :=
  { sendPortAliases := [], m_SendPortVariables := [], m_SendPortSpike := "",
    m_SendPortSpikeLikeEvent := "", m_AdditionalInputVars := [] }

/-- Body of the send port loop (lines 131-160). -/
def sendPortBody (findAlias : String → Option String)
    (st : PortClassification) (sendPort : PortNode) : Except Error PortClassification :=
  if sendPort.nodeType = "AnalogSendPort" then
    match findAlias sendPort.portName with
    | some aliasCode =>
        .ok { st with
          sendPortAliases := (StdMap.insert st.sendPortAliases sendPort.portName aliasCode).1
          m_SendPortVariables := StdSet.insert st.m_SendPortVariables sendPort.portName }
    | none =>
        .ok { st with
          m_SendPortVariables := StdSet.insert st.m_SendPortVariables sendPort.portName }
  else if sendPort.nodeType = "EventSendPort" then
    if st.m_SendPortSpike = "" then
      .ok { st with m_SendPortSpike := sendPort.portName }
    else
      -- `m_SendPortSpikeLikeEvent = portName` is lost with the throw
      .error .UnsupportedFeatureError
  else
    .error (.UnsupportedPortError sendPort.nodeType "send")

/-- Body of the receive port loop (lines 166-175); `0.0` is kept as the integer 0. -/
def receivePortBody (st : PortClassification) (receivePort : PortNode) :
    Except Error PortClassification :=
  if receivePort.nodeType = "AnalogReceivePort" then
    .ok { st with
      m_AdditionalInputVars := st.m_AdditionalInputVars ++ [(receivePort.portName, "scalar", 0)] }
  else
    .error (.UnsupportedPortError receivePort.nodeType "reduce")

/-- Body of the reduce port loop (lines 181-191). -/
def reducePortBody (st : PortClassification) (reducePort : PortNode) :
    Except Error PortClassification :=
  if reducePort.nodeType = "AnalogReducePort" ∧ reducePort.reduce_op = "+" then
    .ok { st with
      m_AdditionalInputVars := st.m_AdditionalInputVars ++ [(reducePort.portName, "scalar", 0)] }
  else
    .error (.UnsupportedPortError reducePort.nodeType "reduce")

/-- A `for` loop whose body may throw: the state after the last pass, or the
first exception. -/
def forEach {σ α : Type} (body : σ → α → Except Error σ) : List α → σ → Except Error σ
  | [], st => .ok st
  | a :: as, st =>
      match body st a with
      | .error e => .error e
      | .ok st' => forEach body as st'

/-- The three port loops of the constructor (lines 127-192). -/
def classifyPorts (findAlias : String → Option String) (children : List PortNode) :
    Except Error PortClassification :=
  match forEach (sendPortBody findAlias) (selectNodesHasSuffix "SendPort" children)
      PortClassification.init with
  | .error e => .error e
  | .ok st1 =>
      match forEach receivePortBody (selectNodesHasSuffix "ReceivePort" children) st1 with
      | .error e => .error e
      | .ok st2 => forEach reducePortBody (selectNodesHasSuffix "ReducePort" children) st2

/-- Lines 107-125: the component class of the document, or the load and schema
errors. `file` is the outcome of `doc.load_file`, with `result.description()`
on failure. -/
def loadComponentClass (url : String) (file : Except String XmlDocument) :
    Except Error ComponentClass :=
  match file with
  | .error description => .error (.LoadError url description)
  | .ok doc =>
      match doc.spineML with
      | none => .error (.SchemaErrorRoot url)
      | some spineML =>
          match spineML.componentClass with
          | none => .error (.SchemaErrorComponent url)
          | some componentClass =>
              if componentClass.type ≠ "neuron_body" then .error (.SchemaErrorComponent url)
              else .ok componentClass

/-- The call `generateModelCode` of line 208 with the handlers of lines 198-207:
each callback in turn, on the code stream and the condition handler. -/
def runVisits (ext : Collaborators) :
    List Visit → CodeStream → ObjectHandlerNeuronCondition →
      Except Error (CodeStream × ObjectHandlerNeuronCondition)
  | [], simCodeStream, handler => .ok (simCodeStream, handler)
  | .condition node currentRegimeID targetRegimeID :: vs, simCodeStream, handler =>
      match handler.onObject ext.conditionOnObject simCodeStream node currentRegimeID
          targetRegimeID with
      | (.error e, _) => .error e
      | (.ok simCodeStream', handler') => runVisits ext vs simCodeStream' handler'
  | .timeDerivative node currentRegimeID :: vs, simCodeStream, handler =>
      match ext.timeDerivativeOnObject node currentRegimeID simCodeStream with
      | .error e => .error e
      | .ok simCodeStream' => runVisits ext vs simCodeStream' handler
  | .regimeEnd multipleRegimes currentRegimeID :: vs, simCodeStream, handler =>
      runVisits ext vs (ext.onRegimeEnd multipleRegimes currentRegimeID simCodeStream) handler

/-- Body of the alias loop (lines 214-220) on the code stream and
`variableParams`. -/
def aliasLoopBody (st : CodeStream × StdSet String) (s : String × String) :
    CodeStream × StdSet String :=
  (st.1 ++ s.1 ++ " = " ++ s.2 ++ ";" ++ "\n", StdSet.insert st.2 s.1)

/-- The members of `NeuronModel` the constructor sets. -/
structure NeuronModel where
  m_SimCode : String
  m_ThresholdConditionCode : String
  m_ParamNames : List String
  m_Vars : List String
  m_AdditionalInputVars : List (String × String × Int)
  m_SendPortVariables : StdSet String
  m_SendPortSpike : String
  m_SendPortSpikeLikeEvent : String
  deriving DecidableEq, Repr

/-- What the constructor has computed when it calls `processModelVariables`
(line 228). -/
structure BeforePartition where
  ports : PortClassification
  traversalCode : CodeStream
  handler : ObjectHandlerNeuronCondition
  multipleRegimes : Bool
  simCode : String
  thresholdConditionCode : String
  variableParams : StdSet String
  deriving DecidableEq, Repr

/-- Lines 105-224 of the constructor: everything up to the call of
`processModelVariables`. -/
def NeuronModel.beforePartition (ext : Collaborators) (file : Except String XmlDocument)
    (params : ModelParams.Neuron) : Except Error BeforePartition :=
  match loadComponentClass params.url file with
  | .error e => .error e
  | .ok componentClass =>
      match classifyPorts ext.findAlias componentClass.children with
      | .error e => .error e
      | .ok ports =>
          match runVisits ext ext.visits "" ⟨[], ports.m_SendPortSpike⟩ with
          | .error e => .error e
          | .ok (traversalCode, handler) =>
              match ext.traversalResult with
              | .error e => .error e
              | .ok multipleRegimes =>
                  let aliased := ports.sendPortAliases.foldl aliasLoopBody
                    (traversalCode, params.variableParams)
                  match handler.getThresholdCode multipleRegimes with
                  | .error e => .error e
                  | .ok thresholdConditionCode =>
                      .ok { ports := ports, traversalCode := traversalCode, handler := handler,
                            multipleRegimes := multipleRegimes, simCode := aliased.1,
                            thresholdConditionCode := thresholdConditionCode,
                            variableParams := aliased.2 }

/-- The constructor `NeuronModel::NeuronModel(const ModelParams::Neuron &params)`
(lines 105-230): the object built, or the exception thrown. -/
def NeuronModel.new (ext : Collaborators) (file : Except String XmlDocument)
    (params : ModelParams.Neuron) : Except Error NeuronModel :=
  match NeuronModel.beforePartition ext file params with
  | .error e => .error e
  | .ok b =>
      match ext.processModelVariables b.variableParams b.multipleRegimes b.simCode
          b.thresholdConditionCode with
      | .error e => .error e
      | .ok (paramNames, vars, simCode, thresholdConditionCode) =>
          .ok { m_SimCode := simCode, m_ThresholdConditionCode := thresholdConditionCode,
                m_ParamNames := paramNames, m_Vars := vars,
                m_AdditionalInputVars := b.ports.m_AdditionalInputVars,
                m_SendPortVariables := b.ports.m_SendPortVariables,
                m_SendPortSpike := b.ports.m_SendPortSpike,
                m_SendPortSpikeLikeEvent := b.ports.m_SendPortSpikeLikeEvent }

/-! ## Vocabulary of the statements -/

/-- Records the triggers `l` in the given order with `std::map::insert`, as the
successive `onObject` calls of one traversal do. -/
def recordAll (l : List (Nat × String)) : StdMap Nat String :=
  l.foldl (fun m p => (StdMap.insert m p.1 p.2).1) []

/-- The conjunct the specification prescribes for one recorded trigger. -/
def regimeConjunct (p : Nat × String) : String :=
  "(_regimeID == " ++ toString p.1 ++ " && (" ++ p.2 ++ "))"

/-- The assignment line the specification prescribes for an alias-backed port:
`port = expression;` and a line end. -/
def aliasLine (s : String × String) : String :=
  s.1 ++ " = " ++ s.2 ++ ";\n"

/-- The invariant of `sendPortAliases` during the send port loop: it is a
`std::map` and every entry is a port name with the alias code found for it. -/
def AliasesInv (findAlias : String → Option String) (st : PortClassification) : Prop :=
  StdMap.Valid st.sendPortAliases ∧ ∀ x ∈ st.sendPortAliases, findAlias x.1 = some x.2

/-- The example of the specification, section 8: regimes Active (0) and
Refractory (1), one transition of Active with trigger `V > 30` emitting on
the spike port, and an analog send port `I_syn` with alias `g*(E-V)`; the
base handlers write nothing and the partitioner returns the code as it is. -/
def exampleCollaborators : Collaborators where
  findAlias := fun portName => if portName = "I_syn" then some "g*(E-V)" else none
  visits := [.condition ⟨["spike"], "V > 30"⟩ 0 1, .regimeEnd true 0, .regimeEnd true 1]
  traversalResult := .ok true
  conditionOnObject := fun _ _ _ codeStream => .ok codeStream
  timeDerivativeOnObject := fun _ _ codeStream => .ok codeStream
  onRegimeEnd := fun _ _ codeStream => codeStream
  processModelVariables := fun variableParams _ simCode thresholdCode =>
    .ok ([], StdMap.keys variableParams, simCode, thresholdCode)

/-- The document of the example. -/
def exampleDocument : XmlDocument :=
  ⟨some ⟨some ⟨"neuron_body",
    [⟨"EventSendPort", "spike", ""⟩, ⟨"AnalogSendPort", "I_syn", ""⟩,
      ⟨"AnalogReducePort", "I_ext", "+"⟩]⟩⟩⟩

/-- The model parameters of the example: `V` is a variable. -/
def exampleParams : ModelParams.Neuron :=
  ⟨"example.xml", [("V", ())]⟩

/-- The object the constructor builds for the example. -/
def exampleModel : NeuronModel where
  m_SimCode := "I_syn = g*(E-V);\n"
  m_ThresholdConditionCode := "(_regimeID == 0 && (V > 30))"
  m_ParamNames := []
  m_Vars := ["I_syn", "V"]
  m_AdditionalInputVars := [("I_ext", "scalar", 0)]
  m_SendPortVariables := [("I_syn", ())]
  m_SendPortSpike := "spike"
  m_SendPortSpikeLikeEvent := ""

/-- Two runs of a loop end alike: both throw, or both return the same state. -/
def SameOutcome (x y : Except Error PortClassification) : Prop :=
  match x, y with
  | .ok a, .ok b => a = b
  | .error _, .error _ => True
  | _, _ => False

/-- The invariant of the send port loop: both containers are well formed and
every alias entry is a port name with the alias code found for it. -/
def SendInv (findAlias : String → Option String) (st : PortClassification) : Prop :=
  AliasesInv findAlias st ∧ StdMap.Valid st.m_SendPortVariables

/-! ## Facts about `std::map::insert` -/

theorem StdMap.insert_eq_of_not_inserted {κ V : Type} [LinearOrder κ] (m : StdMap κ V) (k : κ)
    (v : V) (h : (StdMap.insert m k v).2 = false) : (StdMap.insert m k v).1 = m := by
  induction m with
  | nil => simp [StdMap.insert] at h
  | cons a t ih =>
      obtain ⟨k', v'⟩ := a
      unfold StdMap.insert at h ⊢
      by_cases h1 : k < k'
      · simp [h1] at h
      · by_cases h2 : k' < k
        · simp only [h1, h2, if_true, if_false] at h ⊢
          rw [ih h]
        · simp [h1, h2]

theorem StdMap.insert_perm_of_inserted {κ V : Type} [LinearOrder κ] (m : StdMap κ V) (k : κ)
    (v : V) (h : (StdMap.insert m k v).2 = true) :
    (StdMap.insert m k v).1.Perm ((k, v) :: m) := by
  induction m with
  | nil => simp [StdMap.insert]
  | cons a t ih =>
      obtain ⟨k', v'⟩ := a
      unfold StdMap.insert at h ⊢
      by_cases h1 : k < k'
      · simp [h1]
      · by_cases h2 : k' < k
        · simp only [h1, h2, if_true, if_false] at h ⊢
          exact ((ih h).cons (k', v')).trans (List.Perm.swap _ _ _)
        · simp [h1, h2] at h

theorem StdMap.mem_keys_of_not_inserted {κ V : Type} [LinearOrder κ] (m : StdMap κ V) (k : κ)
    (v : V) (h : (StdMap.insert m k v).2 = false) : k ∈ StdMap.keys m := by
  induction m with
  | nil => simp [StdMap.insert] at h
  | cons a t ih =>
      obtain ⟨k', v'⟩ := a
      unfold StdMap.insert at h
      by_cases h1 : k < k'
      · simp [h1] at h
      · by_cases h2 : k' < k
        · simp only [h1, h2, if_true, if_false] at h
          simp only [StdMap.keys, List.map_cons, List.mem_cons]
          exact Or.inr (ih h)
        · have : k = k' := le_antisymm (not_lt.mp h2) (not_lt.mp h1)
          simp [StdMap.keys, this]

theorem StdMap.not_inserted_of_mem_keys {κ V : Type} [LinearOrder κ] (m : StdMap κ V) (k : κ)
    (v : V) (hm : StdMap.Valid m) (h : k ∈ StdMap.keys m) : (StdMap.insert m k v).2 = false := by
  induction m with
  | nil => simp [StdMap.keys] at h
  | cons a t ih =>
      obtain ⟨k', v'⟩ := a
      have hm' := List.pairwise_cons.mp hm
      simp only [StdMap.keys, List.map_cons, List.mem_cons] at h
      unfold StdMap.insert
      rcases h with h | h
      · subst h
        simp
      · have hlt : k' < k := by
          obtain ⟨b, hb, hbk⟩ := List.mem_map.mp h
          have := hm'.1 b hb
          simpa [hbk] using this
        simp only [not_lt_of_lt hlt, hlt, if_true, if_false]
        exact ih hm'.2 h

theorem StdMap.inserted_iff {κ V : Type} [LinearOrder κ] (m : StdMap κ V) (k : κ)
    (v : V) (hm : StdMap.Valid m) : (StdMap.insert m k v).2 = true ↔ k ∉ StdMap.keys m := by
  constructor
  · intro h hk
    rw [StdMap.not_inserted_of_mem_keys m k v hm hk] at h
    exact Bool.false_ne_true h
  · intro hk
    cases hb : (StdMap.insert m k v).2 with
    | true => rfl
    | false => exact absurd (StdMap.mem_keys_of_not_inserted m k v hb) hk

theorem StdMap.mem_insert {κ V : Type} [LinearOrder κ] (m : StdMap κ V) (k : κ) (v : V)
    (x : κ × V) : x ∈ (StdMap.insert m k v).1 ↔
      x ∈ m ∨ ((StdMap.insert m k v).2 = true ∧ x = (k, v)) := by
  cases hb : (StdMap.insert m k v).2 with
  | false => simp [StdMap.insert_eq_of_not_inserted m k v hb]
  | true =>
      rw [(StdMap.insert_perm_of_inserted m k v hb).mem_iff]
      simp [or_comm]

theorem StdMap.mem_keys_insert {κ V : Type} [LinearOrder κ] (m : StdMap κ V) (k : κ) (v : V)
    (x : κ) : x ∈ StdMap.keys (StdMap.insert m k v).1 ↔ x = k ∨ x ∈ StdMap.keys m := by
  cases hb : (StdMap.insert m k v).2 with
  | false =>
      have hk := StdMap.mem_keys_of_not_inserted m k v hb
      rw [StdMap.insert_eq_of_not_inserted m k v hb]
      constructor
      · exact Or.inr
      · rintro (h | h)
        · exact h ▸ hk
        · exact h
  | true =>
      unfold StdMap.keys
      rw [((StdMap.insert_perm_of_inserted m k v hb).map Prod.fst).mem_iff]
      simp

theorem StdMap.insert_valid {κ V : Type} [LinearOrder κ] (m : StdMap κ V) (k : κ) (v : V)
    (hm : StdMap.Valid m) : StdMap.Valid (StdMap.insert m k v).1 := by
  induction m with
  | nil => simp [StdMap.insert, StdMap.Valid]
  | cons a t ih =>
      obtain ⟨k', v'⟩ := a
      have hm' := List.pairwise_cons.mp hm
      unfold StdMap.insert
      by_cases h1 : k < k'
      · simp only [h1, if_true]
        refine List.pairwise_cons.mpr ⟨?_, hm⟩
        intro b hb
        rcases List.mem_cons.mp hb with hb | hb
        · simpa [hb] using h1
        · exact lt_trans h1 (hm'.1 b hb)
      · by_cases h2 : k' < k
        · simp only [h1, h2, if_true, if_false]
          refine List.pairwise_cons.mpr ⟨?_, ih hm'.2⟩
          intro b hb
          rcases (StdMap.mem_insert t k v b).mp hb with hb | ⟨_, hb⟩
          · exact hm'.1 b hb
          · simpa [hb] using h2
        · simpa [h1, h2] using hm

theorem StdMap.Valid.nodup_keys {κ V : Type} [LinearOrder κ] {m : StdMap κ V}
    (hm : StdMap.Valid m) : (StdMap.keys m).Nodup := by
  unfold StdMap.keys StdMap.Valid at *
  rw [List.Nodup, List.pairwise_map]
  exact hm.imp (fun h => ne_of_lt h)

/-- A strictly increasing arrangement of given entries is unique. -/
theorem StdMap.Valid.eq_of_perm {κ V : Type} [LinearOrder κ] {m s : StdMap κ V}
    (hm : StdMap.Valid m) (hs : StdMap.Valid s) (h : m.Perm s) : m = s := by
  haveI : IsAntisymm (κ × V) (fun a b => a.1 < b.1) :=
    ⟨fun a b h1 h2 => absurd h2 (not_lt_of_lt h1)⟩
  exact List.eq_of_perm_of_sorted h hm hs

/-! ## Recording triggers -/

theorem recordAll_foldl_valid (l : List (Nat × String)) (m : StdMap Nat String)
    (hm : StdMap.Valid m) :
    StdMap.Valid (l.foldl (fun m p => (StdMap.insert m p.1 p.2).1) m) := by
  induction l generalizing m with
  | nil => simpa using hm
  | cons a t ih =>
      simp only [List.foldl_cons]
      exact ih _ (StdMap.insert_valid m a.1 a.2 hm)

theorem recordAll_foldl_perm (l : List (Nat × String)) (m : StdMap Nat String)
    (hm : StdMap.Valid m) (hl : (l.map Prod.fst).Nodup)
    (hdisj : ∀ k ∈ l.map Prod.fst, k ∉ StdMap.keys m) :
    (l.foldl (fun m p => (StdMap.insert m p.1 p.2).1) m).Perm (m ++ l) := by
  induction l generalizing m with
  | nil => simp
  | cons a t ih =>
      simp only [List.foldl_cons]
      rw [List.map_cons] at hl
      have hl' := List.nodup_cons.mp hl
      have ha : a.1 ∉ StdMap.keys m := hdisj a.1 (by simp)
      have hins := (StdMap.inserted_iff m a.1 a.2 hm).mpr ha
      have hperm := StdMap.insert_perm_of_inserted m a.1 a.2 hins
      refine (ih _ (StdMap.insert_valid m a.1 a.2 hm) hl'.2 ?_).trans ?_
      · intro k hk hk'
        rcases (StdMap.mem_keys_insert m a.1 a.2 k).mp hk' with h | h
        · exact hl'.1 (h ▸ hk)
        · exact hdisj k (by simp only [List.map_cons, List.mem_cons]; exact Or.inr hk) h
      · refine (hperm.append_right t).trans ?_
        simpa using (@List.perm_middle _ a m t).symm

theorem recordAll_valid (l : List (Nat × String)) : StdMap.Valid (recordAll l) :=
  recordAll_foldl_valid l [] List.Pairwise.nil

theorem recordAll_perm (l : List (Nat × String)) (hl : (l.map Prod.fst).Nodup) :
    (recordAll l).Perm l := by
  simpa using recordAll_foldl_perm l [] List.Pairwise.nil hl (by simp [StdMap.keys])

/-! ## The threshold loop -/

theorem regimeConjunct_length_pos (r : Nat × String) : 0 < (regimeConjunct r).length := by
  have h : "(_regimeID == ".length = 14 := by decide
  simp only [regimeConjunct, String.length_append, h]
  omega

theorem thresholdLoopBody_empty (r : Nat × String) :
    thresholdLoopBody "" r = regimeConjunct r := by
  have h : ¬ ("".length > 0) := by decide
  simp only [thresholdLoopBody, regimeConjunct, h, if_false, String.empty_append]

theorem thresholdLoopBody_nonempty (stream : String) (r : Nat × String)
    (h : 0 < stream.length) :
    thresholdLoopBody stream r = stream ++ " || " ++ regimeConjunct r := by
  have h' : stream.length > 0 := h
  simp only [thresholdLoopBody, regimeConjunct, h', if_true]

theorem foldl_thresholdLoopBody_nonempty (l : List (Nat × String)) (stream : String)
    (h : 0 < stream.length) :
    l.foldl thresholdLoopBody stream
      = String.intercalate.go stream " || " (l.map regimeConjunct) := by
  induction l generalizing stream with
  | nil => simp [String.intercalate.go]
  | cons a t ih =>
      simp only [List.foldl_cons, List.map_cons, String.intercalate.go]
      rw [thresholdLoopBody_nonempty stream a h]
      apply ih
      simp only [String.length_append]
      omega

theorem foldl_thresholdLoopBody (l : List (Nat × String)) :
    l.foldl thresholdLoopBody "" = " || ".intercalate (l.map regimeConjunct) := by
  cases l with
  | nil => simp [String.intercalate]
  | cons a t =>
      simp only [List.foldl_cons, List.map_cons, String.intercalate]
      rw [thresholdLoopBody_empty]
      exact foldl_thresholdLoopBody_nonempty t _ (regimeConjunct_length_pos a)

/-! ## Claims about `getThresholdCode` -/

/-- C1: whatever the order in which triggers with pairwise different regime ids
were recorded, `getThresholdCode(true)` returns the conjuncts
`(_regimeID == id && (expr))` of an arrangement `s` of exactly the recorded
pairs with strictly increasing regime ids, joined by `" || "`; one recorded
trigger gives its single conjunct, as for regime 0 with `V > 30`, and none
gives the empty string. -/
theorem getThresholdCode_multipleRegimes (l : List (Nat × String)) (spike : String)
    (hl : (l.map Prod.fst).Nodup) :
    (∃ s : List (Nat × String), s.Perm l ∧ s.Pairwise (fun a b => a.1 < b.1) ∧
      (ObjectHandlerNeuronCondition.mk (recordAll l) spike).getThresholdCode true
        = .ok (" || ".intercalate (s.map regimeConjunct))) ∧
    (∀ s : List (Nat × String), s.Perm l → s.Pairwise (fun a b => a.1 < b.1) →
      (ObjectHandlerNeuronCondition.mk (recordAll l) spike).getThresholdCode true
        = .ok (" || ".intercalate (s.map regimeConjunct))) ∧
    (∀ p, l = [p] →
      (ObjectHandlerNeuronCondition.mk (recordAll l) spike).getThresholdCode true
        = .ok (regimeConjunct p)) ∧
    (l = [] →
      (ObjectHandlerNeuronCondition.mk (recordAll l) spike).getThresholdCode true = .ok "") ∧
    (ObjectHandlerNeuronCondition.mk (recordAll [(0, "V > 30")]) spike).getThresholdCode true
      = .ok "(_regimeID == 0 && (V > 30))" := by
  have hcode : (ObjectHandlerNeuronCondition.mk (recordAll l) spike).getThresholdCode true
      = .ok (" || ".intercalate ((recordAll l).map regimeConjunct)) := by
    simp [ObjectHandlerNeuronCondition.getThresholdCode, foldl_thresholdLoopBody]
  refine ⟨⟨recordAll l, recordAll_perm l hl, recordAll_valid l, hcode⟩, ?_, ?_, ?_, ?_⟩
  · intro s hs hsorted
    have : recordAll l = s :=
      StdMap.Valid.eq_of_perm (recordAll_valid l) hsorted ((recordAll_perm l hl).trans hs.symm)
    rw [hcode, this]
  · intro p hp
    subst hp
    rw [hcode]
    simp [recordAll, StdMap.insert, String.intercalate, String.intercalate.go]
  · intro hnil
    subst hnil
    rw [hcode]
    simp [recordAll, String.intercalate]
  · simp only [ObjectHandlerNeuronCondition.getThresholdCode, if_true]
    decide

theorem getThresholdCode_multipleRegimes_witness :
    ([(3, "a"), (0, "V > 30"), (2, "c")].map Prod.fst).Nodup ∧
    (ObjectHandlerNeuronCondition.mk (recordAll [(3, "a"), (0, "V > 30"), (2, "c")])
        "spike").getThresholdCode true
      = .ok (" || ".intercalate ([(0, "V > 30"), (2, "c"), (3, "a")].map regimeConjunct)) :=
  ⟨by decide,
   (getThresholdCode_multipleRegimes [(3, "a"), (0, "V > 30"), (2, "c")] "spike"
      (by decide)).2.1 [(0, "V > 30"), (2, "c"), (3, "a")] (by decide) (by decide)⟩

/-- C2: when exactly one trigger `(r, e)` has been recorded,
`getThresholdCode(false)` returns `"(" ++ e ++ ")"`, whatever `r` is and with no
regime test. -/
theorem getThresholdCode_singleRegime (r : Nat) (e spike : String) :
    (ObjectHandlerNeuronCondition.mk (recordAll [(r, e)]) spike).getThresholdCode false
      = .ok ("(" ++ e ++ ")") := by
  simp [ObjectHandlerNeuronCondition.getThresholdCode, recordAll, StdMap.insert]

/-- C6: with no recorded trigger `getThresholdCode` returns the empty string,
without an exception, for both values of `multipleRegimes`. -/
theorem getThresholdCode_no_trigger (spike : String) (multipleRegimes : Bool) :
    (ObjectHandlerNeuronCondition.mk [] spike).getThresholdCode multipleRegimes = .ok "" := by
  cases multipleRegimes <;> simp [ObjectHandlerNeuronCondition.getThresholdCode]

/-- C7: on a handler whose map is a `std::map` (keys strictly increasing),
`getThresholdCode` throws exactly when `multipleRegimes` is false and triggers
are recorded for two different regime ids; the exception is then the
consolidation error, and in every other case a string is returned. -/
theorem getThresholdCode_error_iff (self : ObjectHandlerNeuronCondition)
    (multipleRegimes : Bool) (hvalid : StdMap.Valid self.m_RegimeThresholds) :
    (self.getThresholdCode multipleRegimes = .error .ConsolidationError ↔
      (multipleRegimes = false ∧
        ∃ p ∈ self.m_RegimeThresholds, ∃ q ∈ self.m_RegimeThresholds, p.1 ≠ q.1)) ∧
    (∀ e, self.getThresholdCode multipleRegimes = .error e → e = .ConsolidationError) ∧
    (¬ (multipleRegimes = false ∧
        ∃ p ∈ self.m_RegimeThresholds, ∃ q ∈ self.m_RegimeThresholds, p.1 ≠ q.1) →
      ∃ code, self.getThresholdCode multipleRegimes = .ok code) := by
  obtain ⟨m, spike⟩ := self
  have hsize : (∃ p ∈ m, ∃ q ∈ m, p.1 ≠ q.1) ↔ m.length > 1 := by
    constructor
    · rintro ⟨p, hp, q, hq, hpq⟩
      match m, hp, hq with
      | [a], hp, hq =>
          simp only [List.mem_singleton] at hp hq
          exact absurd (hp.trans hq.symm ▸ rfl) hpq
      | _ :: _ :: _, _, _ => simp
    · intro hlen
      match m, hvalid, hlen with
      | a :: b :: t, hvalid, _ =>
          have := (List.pairwise_cons.mp hvalid).1 b (by simp)
          exact ⟨a, by simp, b, by simp, ne_of_lt this⟩
  cases multipleRegimes with
  | true => simp [ObjectHandlerNeuronCondition.getThresholdCode]
  | false =>
      rw [hsize]
      cases m with
      | nil => simp [ObjectHandlerNeuronCondition.getThresholdCode]
      | cons a t =>
          cases t with
          | nil => simp [ObjectHandlerNeuronCondition.getThresholdCode]
          | cons b u => simp [ObjectHandlerNeuronCondition.getThresholdCode]

theorem getThresholdCode_error_iff_witness :
    StdMap.Valid (recordAll [(1, "V > 30"), (0, "U > 1")]) ∧
    (ObjectHandlerNeuronCondition.mk (recordAll [(1, "V > 30"), (0, "U > 1")])
        "spike").getThresholdCode false = .error .ConsolidationError :=
  ⟨recordAll_valid _,
   (getThresholdCode_error_iff ⟨recordAll [(1, "V > 30"), (0, "U > 1")], "spike"⟩ false
      (recordAll_valid _)).1.mpr
     ⟨rfl, (0, "U > 1"), by decide, (1, "V > 30"), by decide, by decide⟩⟩

/-! ## The condition handler during the traversal -/

theorem onObject_of_super_ok
    (superOnObject : ConditionNode → Nat → Nat → CodeStream → Except Error CodeStream)
    (self : ObjectHandlerNeuronCondition) (codeStream codeStream' : CodeStream)
    (node : ConditionNode) (r t : Nat)
    (hsuper : superOnObject node r t codeStream = .ok codeStream')
    (hspike : self.m_SendPortSpike ∈ node.eventOutPorts) :
    self.onObject superOnObject codeStream node r t =
      (if (StdMap.insert self.m_RegimeThresholds r node.triggerCode).2 = true
        then .ok codeStream' else .error .DuplicateTriggerError,
       { self with
          m_RegimeThresholds := (StdMap.insert self.m_RegimeThresholds r node.triggerCode).1 }) := by
  unfold ObjectHandlerNeuronCondition.onObject
  rw [hsuper]
  cases hb : (StdMap.insert self.m_RegimeThresholds r node.triggerCode).2 <;>
    simp [hspike, hb]

/-- A normal return of `onObject` keeps the map a `std::map`, keeps the spike
port and every recorded key, and records the regime of a spike condition. -/
theorem onObject_ok
    (superOnObject : ConditionNode → Nat → Nat → CodeStream → Except Error CodeStream)
    (self self' : ObjectHandlerNeuronCondition) (codeStream codeStream' : CodeStream)
    (node : ConditionNode) (r t : Nat)
    (h : self.onObject superOnObject codeStream node r t = (.ok codeStream', self'))
    (hvalid : StdMap.Valid self.m_RegimeThresholds) :
    StdMap.Valid self'.m_RegimeThresholds ∧ self'.m_SendPortSpike = self.m_SendPortSpike ∧
    (∀ k ∈ StdMap.keys self.m_RegimeThresholds, k ∈ StdMap.keys self'.m_RegimeThresholds) ∧
    (self.m_SendPortSpike ∈ node.eventOutPorts → r ∈ StdMap.keys self'.m_RegimeThresholds) := by
  unfold ObjectHandlerNeuronCondition.onObject at h
  cases hs : superOnObject node r t codeStream with
  | error e => simp [hs] at h
  | ok cs =>
      rw [hs] at h
      by_cases hspike : self.m_SendPortSpike ∈ node.eventOutPorts
      · cases hb : (StdMap.insert self.m_RegimeThresholds r node.triggerCode).2 with
        | false => simp [hspike, hb] at h
        | true =>
            simp only [hspike, hb, if_true, Bool.not_true, Bool.false_eq_true, if_false,
              Prod.mk.injEq] at h
            obtain ⟨_, rfl⟩ := h
            refine ⟨StdMap.insert_valid _ _ _ hvalid, rfl, ?_, ?_⟩
            · intro k hk
              exact (StdMap.mem_keys_insert _ _ _ k).mpr (Or.inr hk)
            · intro _
              exact (StdMap.mem_keys_insert _ _ _ r).mpr (Or.inl rfl)
      · simp only [hspike, if_false, Prod.mk.injEq] at h
        obtain ⟨_, rfl⟩ := h
        exact ⟨hvalid, rfl, fun k hk => hk, fun hc => absurd hc hspike⟩

theorem onObject_error_of_recorded
    (superOnObject : ConditionNode → Nat → Nat → CodeStream → Except Error CodeStream)
    (self : ObjectHandlerNeuronCondition) (codeStream : CodeStream)
    (node : ConditionNode) (r t : Nat)
    (hvalid : StdMap.Valid self.m_RegimeThresholds)
    (hspike : self.m_SendPortSpike ∈ node.eventOutPorts)
    (hr : r ∈ StdMap.keys self.m_RegimeThresholds) :
    ∃ e, (self.onObject superOnObject codeStream node r t).1 = .error e := by
  cases hs : superOnObject node r t codeStream with
  | error e => exact ⟨e, by simp [ObjectHandlerNeuronCondition.onObject, hs]⟩
  | ok cs =>
      rw [onObject_of_super_ok superOnObject self codeStream cs node r t hs hspike]
      have := StdMap.not_inserted_of_mem_keys self.m_RegimeThresholds r node.triggerCode hvalid hr
      exact ⟨.DuplicateTriggerError, by simp [this]⟩

theorem runVisits_append (ext : Collaborators) (vs ws : List Visit) (codeStream : CodeStream)
    (handler : ObjectHandlerNeuronCondition) :
    runVisits ext (vs ++ ws) codeStream handler =
      match runVisits ext vs codeStream handler with
      | .error e => .error e
      | .ok (codeStream', handler') => runVisits ext ws codeStream' handler' := by
  induction vs generalizing codeStream handler with
  | nil => simp [runVisits]
  | cons v vs ih =>
      cases v with
      | condition node r t =>
          simp only [List.cons_append, runVisits]
          rcases hres : handler.onObject ext.conditionOnObject codeStream node r t with ⟨out, h'⟩
          cases out with
          | error e => simp
          | ok cs => simpa using ih cs h'
      | timeDerivative node r =>
          simp only [List.cons_append, runVisits]
          cases ext.timeDerivativeOnObject node r codeStream with
          | error e => simp
          | ok cs => simpa using ih cs handler
      | regimeEnd m r =>
          simp only [List.cons_append, runVisits]
          exact ih _ handler

theorem runVisits_ok (ext : Collaborators) (vs : List Visit) (codeStream codeStream' : CodeStream)
    (handler handler' : ObjectHandlerNeuronCondition)
    (h : runVisits ext vs codeStream handler = .ok (codeStream', handler'))
    (hvalid : StdMap.Valid handler.m_RegimeThresholds) :
    StdMap.Valid handler'.m_RegimeThresholds ∧
    handler'.m_SendPortSpike = handler.m_SendPortSpike ∧
    (∀ k ∈ StdMap.keys handler.m_RegimeThresholds,
      k ∈ StdMap.keys handler'.m_RegimeThresholds) := by
  induction vs generalizing codeStream handler with
  | nil =>
      simp only [runVisits, Except.ok.injEq, Prod.mk.injEq] at h
      obtain ⟨_, rfl⟩ := h
      exact ⟨hvalid, rfl, fun k hk => hk⟩
  | cons v vs ih =>
      cases v with
      | condition node r t =>
          simp only [runVisits] at h
          rcases hres : handler.onObject ext.conditionOnObject codeStream node r t with ⟨out, h1⟩
          rw [hres] at h
          cases out with
          | error e => simp at h
          | ok cs =>
              have h0 := onObject_ok _ _ _ _ _ _ _ _ hres hvalid
              have h2 := ih cs h1 h h0.1
              exact ⟨h2.1, h2.2.1.trans h0.2.1, fun k hk => h2.2.2 k (h0.2.2.1 k hk)⟩
      | timeDerivative node r =>
          simp only [runVisits] at h
          cases hres : ext.timeDerivativeOnObject node r codeStream with
          | error e => simp [hres] at h
          | ok cs =>
              rw [hres] at h
              exact ih cs handler h hvalid
      | regimeEnd m r =>
          simp only [runVisits] at h
          exact ih _ handler h hvalid

/-- A traversal that visits two conditions of one regime that both emit on the
spike port does not return normally. -/
theorem runVisits_duplicate (ext : Collaborators) (pre mid post : List Visit)
    (n1 n2 : ConditionNode) (r t1 t2 : Nat) (codeStream : CodeStream)
    (handler : ObjectHandlerNeuronCondition)
    (hvalid : StdMap.Valid handler.m_RegimeThresholds)
    (h1 : handler.m_SendPortSpike ∈ n1.eventOutPorts)
    (h2 : handler.m_SendPortSpike ∈ n2.eventOutPorts) :
    ∃ e, runVisits ext (pre ++ .condition n1 r t1 :: (mid ++ .condition n2 r t2 :: post))
      codeStream handler = .error e := by
  rw [runVisits_append]
  cases hpre : runVisits ext pre codeStream handler with
  | error e => exact ⟨e, rfl⟩
  | ok res =>
      obtain ⟨cs1, ha⟩ := res
      have hA := runVisits_ok ext pre codeStream cs1 handler ha hpre hvalid
      simp only [runVisits]
      rcases hres : ha.onObject ext.conditionOnObject cs1 n1 r t1 with ⟨out, hb⟩
      cases out with
      | error e => exact ⟨e, rfl⟩
      | ok cs2 =>
          have hB := onObject_ok _ _ _ _ _ _ _ _ hres hA.1
          simp only []
          rw [runVisits_append]
          cases hmid : runVisits ext mid cs2 hb with
          | error e => exact ⟨e, rfl⟩
          | ok res2 =>
              obtain ⟨cs3, hc⟩ := res2
              have hC := runVisits_ok ext mid cs2 cs3 hb hc hmid hB.1
              have hspike : hc.m_SendPortSpike ∈ n2.eventOutPorts := by
                rw [hC.2.1, hB.2.1, hA.2.1]; exact h2
              have hr : r ∈ StdMap.keys hc.m_RegimeThresholds :=
                hC.2.2 r (hB.2.2.2 (by rw [hA.2.1]; exact h1))
              obtain ⟨e, he⟩ := onObject_error_of_recorded ext.conditionOnObject hc cs3 n2 r t2
                hC.1 hspike hr
              refine ⟨e, ?_⟩
              simp only [runVisits]
              rcases hres2 : hc.onObject ext.conditionOnObject cs3 n2 r t2 with ⟨out2, hd⟩
              rw [hres2] at he
              simp only at he
              subst he
              rfl

/-! ## Reading a successful build backwards -/

theorem NeuronModel.beforePartition_ok (ext : Collaborators) (file : Except String XmlDocument)
    (params : ModelParams.Neuron) (b : BeforePartition)
    (h : NeuronModel.beforePartition ext file params = .ok b) :
    ∃ componentClass,
      loadComponentClass params.url file = .ok componentClass ∧
      classifyPorts ext.findAlias componentClass.children = .ok b.ports ∧
      runVisits ext ext.visits "" ⟨[], b.ports.m_SendPortSpike⟩
        = .ok (b.traversalCode, b.handler) ∧
      ext.traversalResult = .ok b.multipleRegimes ∧
      b.handler.getThresholdCode b.multipleRegimes = .ok b.thresholdConditionCode ∧
      b.simCode = (b.ports.sendPortAliases.foldl aliasLoopBody
        (b.traversalCode, params.variableParams)).1 ∧
      b.variableParams = (b.ports.sendPortAliases.foldl aliasLoopBody
        (b.traversalCode, params.variableParams)).2 := by
  unfold NeuronModel.beforePartition at h
  cases hload : loadComponentClass params.url file with
  | error e => simp [hload] at h
  | ok cc =>
    cases hports : classifyPorts ext.findAlias cc.children with
    | error e => simp [hload, hports] at h
    | ok ports =>
      cases hrun : runVisits ext ext.visits "" ⟨[], ports.m_SendPortSpike⟩ with
      | error e => simp [hload, hports, hrun] at h
      | ok res =>
        obtain ⟨tc, handler⟩ := res
        cases htrav : ext.traversalResult with
        | error e => simp [hload, hports, hrun, htrav] at h
        | ok multi =>
          cases hthr : handler.getThresholdCode multi with
          | error e => simp [hload, hports, hrun, htrav, hthr] at h
          | ok code =>
            simp only [hload, hports, hrun, htrav, hthr, Except.ok.injEq] at h
            subst h
            exact ⟨cc, rfl, hports, hrun, rfl, hthr, rfl, rfl⟩

theorem NeuronModel.new_ok (ext : Collaborators) (file : Except String XmlDocument)
    (params : ModelParams.Neuron) (model : NeuronModel)
    (h : NeuronModel.new ext file params = .ok model) :
    ∃ b, NeuronModel.beforePartition ext file params = .ok b ∧
      ext.processModelVariables b.variableParams b.multipleRegimes b.simCode
          b.thresholdConditionCode
        = .ok (model.m_ParamNames, model.m_Vars, model.m_SimCode,
            model.m_ThresholdConditionCode) ∧
      model.m_AdditionalInputVars = b.ports.m_AdditionalInputVars ∧
      model.m_SendPortVariables = b.ports.m_SendPortVariables ∧
      model.m_SendPortSpike = b.ports.m_SendPortSpike ∧
      model.m_SendPortSpikeLikeEvent = b.ports.m_SendPortSpikeLikeEvent := by
  unfold NeuronModel.new at h
  cases hb : NeuronModel.beforePartition ext file params with
  | error e => simp [hb] at h
  | ok b =>
    cases hp : ext.processModelVariables b.variableParams b.multipleRegimes b.simCode
        b.thresholdConditionCode with
    | error e => simp [hb, hp] at h
    | ok res =>
      obtain ⟨pn, vars, sim, thr⟩ := res
      simp only [hb, hp, Except.ok.injEq] at h
      subst h
      exact ⟨b, rfl, hp, rfl, rfl, rfl, rfl⟩

/-! ## Claim about `onObject` -/

/-- C3: on a handler whose map is a `std::map`, for a condition that emits an
event on the spike port in regime `r` and whose base class call returns, the
method `onObject` throws if and only if a trigger is already recorded for `r`,
and what it throws is the duplicate trigger error; when it throws the members
are unchanged, and when it returns the map holds the earlier entries plus
`(r, trigger)`. Hence no build succeeds whose traversal visits two conditions
of one regime that both emit on the spike port. -/
theorem onObject_duplicate_trigger :
    (∀ (superOnObject : ConditionNode → Nat → Nat → CodeStream → Except Error CodeStream)
      (self : ObjectHandlerNeuronCondition) (codeStream codeStream' : CodeStream)
      (node : ConditionNode) (r t : Nat),
      StdMap.Valid self.m_RegimeThresholds →
      self.m_SendPortSpike ∈ node.eventOutPorts →
      superOnObject node r t codeStream = .ok codeStream' →
      ((self.onObject superOnObject codeStream node r t).1 = .error .DuplicateTriggerError ↔
        r ∈ StdMap.keys self.m_RegimeThresholds) ∧
      ((∃ e, (self.onObject superOnObject codeStream node r t).1 = .error e) ↔
        r ∈ StdMap.keys self.m_RegimeThresholds) ∧
      (r ∈ StdMap.keys self.m_RegimeThresholds →
        (self.onObject superOnObject codeStream node r t).2 = self) ∧
      (r ∉ StdMap.keys self.m_RegimeThresholds →
        (self.onObject superOnObject codeStream node r t).1 = .ok codeStream' ∧
        (self.onObject superOnObject codeStream node r t).2.m_SendPortSpike
          = self.m_SendPortSpike ∧
        StdMap.Valid (self.onObject superOnObject codeStream node r t).2.m_RegimeThresholds ∧
        (self.onObject superOnObject codeStream node r t).2.m_RegimeThresholds.Perm
          ((r, node.triggerCode) :: self.m_RegimeThresholds))) ∧
    (∀ (ext : Collaborators) (file : Except String XmlDocument) (params : ModelParams.Neuron)
      (model : NeuronModel) (pre mid post : List Visit) (n1 n2 : ConditionNode)
      (r t1 t2 : Nat),
      NeuronModel.new ext file params = .ok model →
      ext.visits = pre ++ .condition n1 r t1 :: (mid ++ .condition n2 r t2 :: post) →
      model.m_SendPortSpike ∈ n1.eventOutPorts →
      model.m_SendPortSpike ∉ n2.eventOutPorts) := by
  constructor
  · intro superOnObject self codeStream codeStream' node r t hvalid hspike hsuper
    rw [onObject_of_super_ok superOnObject self codeStream codeStream' node r t hsuper hspike]
    by_cases hr : r ∈ StdMap.keys self.m_RegimeThresholds
    · have hb := StdMap.not_inserted_of_mem_keys self.m_RegimeThresholds r node.triggerCode
        hvalid hr
      have hm := StdMap.insert_eq_of_not_inserted self.m_RegimeThresholds r node.triggerCode hb
      simp [hb, hm, hr]
    · have hb := (StdMap.inserted_iff self.m_RegimeThresholds r node.triggerCode hvalid).mpr hr
      have hp := StdMap.insert_perm_of_inserted self.m_RegimeThresholds r node.triggerCode hb
      have hv := StdMap.insert_valid self.m_RegimeThresholds r node.triggerCode hvalid
      simp only [hb, if_true, hr, iff_false, not_exists, false_implies, not_false_eq_true,
        true_implies, true_and]
      exact ⟨by simp, by simp, hv, hp⟩
  · intro ext file params model pre mid post n1 n2 r t1 t2 hnew hvisits h1 h2
    obtain ⟨b, hb, _, _, _, hspike, _⟩ := NeuronModel.new_ok ext file params model hnew
    obtain ⟨cc, _, _, hrun, _⟩ := NeuronModel.beforePartition_ok ext file params b hb
    rw [hspike] at h1 h2
    obtain ⟨e, he⟩ := runVisits_duplicate ext pre mid post n1 n2 r t1 t2 ""
      ⟨[], b.ports.m_SendPortSpike⟩ List.Pairwise.nil h1 h2
    rw [← hvisits, hrun] at he
    exact Except.noConfusion he

theorem onObject_duplicate_trigger_witness :
    ((ObjectHandlerNeuronCondition.mk (recordAll [(0, "V > 30")]) "spike").onObject
        (fun _ _ _ cs => .ok cs) "" ⟨["spike"], "V > 31"⟩ 0 1).1
      = .error .DuplicateTriggerError :=
  ((onObject_duplicate_trigger.1 (fun _ _ _ cs => .ok cs)
      ⟨recordAll [(0, "V > 30")], "spike"⟩ "" "" ⟨["spike"], "V > 31"⟩ 0 1
      (recordAll_valid _) (by decide) rfl).1).mpr (by decide)

/-! ## The port loops -/

theorem forEach_append {σ α : Type} (body : σ → α → Except Error σ) (as bs : List α) (st : σ) :
    forEach body (as ++ bs) st =
      match forEach body as st with
      | .error e => .error e
      | .ok st' => forEach body bs st' := by
  induction as generalizing st with
  | nil => simp [forEach]
  | cons a as ih =>
      simp only [List.cons_append, forEach]
      cases body st a with
      | error e => simp
      | ok st' => simpa using ih st'

theorem selectNodesHasSuffix_append (suffix : String) (as bs : List PortNode) :
    selectNodesHasSuffix suffix (as ++ bs)
      = selectNodesHasSuffix suffix as ++ selectNodesHasSuffix suffix bs := by
  simp [selectNodesHasSuffix]

theorem selectNodesHasSuffix_eventSendPort (e : PortNode) (as : List PortNode)
    (he : e.nodeType = "EventSendPort") :
    selectNodesHasSuffix "SendPort" (e :: as) = e :: selectNodesHasSuffix "SendPort" as := by
  have : "SendPort".data.isSuffixOf "EventSendPort".data = true := by decide
  simp [selectNodesHasSuffix, List.filter, he, this]

/-- A pass of the send port loop leaves the additional input variables alone,
and keeps a spike port that is already set. -/
theorem sendPortBody_ok (findAlias : String → Option String) (st st' : PortClassification)
    (p : PortNode) (h : sendPortBody findAlias st p = .ok st') :
    st'.m_AdditionalInputVars = st.m_AdditionalInputVars ∧
    (st.m_SendPortSpike ≠ "" → st'.m_SendPortSpike = st.m_SendPortSpike) := by
  have hEA : ¬ ("EventSendPort" = "AnalogSendPort") := by decide
  unfold sendPortBody at h
  by_cases hA : p.nodeType = "AnalogSendPort"
  · simp only [hA, if_true] at h
    cases hf : findAlias p.portName with
    | none =>
        simp only [hf, Except.ok.injEq] at h
        subst h
        exact ⟨rfl, fun _ => rfl⟩
    | some code =>
        simp only [hf, Except.ok.injEq] at h
        subst h
        exact ⟨rfl, fun _ => rfl⟩
  · by_cases hE : p.nodeType = "EventSendPort"
    · by_cases hs : st.m_SendPortSpike = ""
      · simp only [hE, hEA, hs, if_true, if_false, Except.ok.injEq] at h
        subst h
        exact ⟨rfl, fun hne => absurd hs hne⟩
      · simp [hE, hEA, hs] at h
    · simp [hA, hE] at h

theorem forEach_sendPortBody_ok (findAlias : String → Option String) (l : List PortNode)
    (st st' : PortClassification) (h : forEach (sendPortBody findAlias) l st = .ok st') :
    st'.m_AdditionalInputVars = st.m_AdditionalInputVars ∧
    (st.m_SendPortSpike ≠ "" → st'.m_SendPortSpike = st.m_SendPortSpike) := by
  induction l generalizing st with
  | nil =>
      simp only [forEach, Except.ok.injEq] at h
      subst h
      exact ⟨rfl, fun _ => rfl⟩
  | cons a t ih =>
      simp only [forEach] at h
      cases hb : sendPortBody findAlias st a with
      | error e => simp [hb] at h
      | ok st1 =>
          rw [hb] at h
          have h1 := sendPortBody_ok findAlias st st1 a hb
          have h2 := ih st1 h
          refine ⟨h2.1.trans h1.1, fun hne => ?_⟩
          have := h1.2 hne
          rw [h2.2 (by rw [this]; exact hne), this]

/-- What the send port loop throws: the spike-like event error, or the
unsupported port error for a port that is neither analog nor event. -/
theorem forEach_sendPortBody_error (findAlias : String → Option String) (l : List PortNode)
    (st : PortClassification) (e : Error)
    (h : forEach (sendPortBody findAlias) l st = .error e) :
    e = .UnsupportedFeatureError ∨
    ∃ p ∈ l, e = .UnsupportedPortError p.nodeType "send" ∧
      p.nodeType ≠ "AnalogSendPort" ∧ p.nodeType ≠ "EventSendPort" := by
  have hEA : ¬ ("EventSendPort" = "AnalogSendPort") := by decide
  induction l generalizing st with
  | nil => simp [forEach] at h
  | cons a t ih =>
      simp only [forEach] at h
      cases hb : sendPortBody findAlias st a with
      | ok st1 =>
          rw [hb] at h
          rcases ih st1 h with h1 | ⟨p, hp, h1⟩
          · exact Or.inl h1
          · exact Or.inr ⟨p, List.mem_cons_of_mem _ hp, h1⟩
      | error e1 =>
          rw [hb] at h
          simp only [Except.error.injEq] at h
          subst h
          unfold sendPortBody at hb
          by_cases hA : a.nodeType = "AnalogSendPort"
          · simp only [hA, if_true] at hb
            cases hf : findAlias a.portName <;> simp [hf] at hb
          · by_cases hE : a.nodeType = "EventSendPort"
            · by_cases hs : st.m_SendPortSpike = ""
              · simp [hE, hEA, hs] at hb
              · simp only [hE, hEA, hs, if_true, if_false, Except.error.injEq] at hb
                exact Or.inl hb.symm
            · simp only [hA, hE, if_false, Except.error.injEq] at hb
              exact Or.inr ⟨a, List.mem_cons_self _ _, hb.symm, hA, hE⟩

/-- An event send port met when the spike port is already set makes the loop
throw, and so does any event send port after one with a non-empty name. -/
theorem forEach_sendPortBody_two_events (findAlias : String → Option String)
    (as bs cs : List PortNode) (e1 e2 : PortNode) (st : PortClassification)
    (h1 : e1.nodeType = "EventSendPort") (hname : e1.portName ≠ "")
    (h2 : e2.nodeType = "EventSendPort") :
    ∃ err, forEach (sendPortBody findAlias) (as ++ e1 :: (bs ++ e2 :: cs)) st = .error err ∧
      (err = .UnsupportedFeatureError ∨
        ∃ p ∈ as ++ bs, err = .UnsupportedPortError p.nodeType "send" ∧
          p.nodeType ≠ "AnalogSendPort" ∧ p.nodeType ≠ "EventSendPort") := by
  have hA : ¬ ("EventSendPort" = "AnalogSendPort") := by decide
  rw [forEach_append]
  cases hfa : forEach (sendPortBody findAlias) as st with
  | error e =>
      refine ⟨e, rfl, ?_⟩
      rcases forEach_sendPortBody_error findAlias as st e hfa with h | ⟨p, hp, h⟩
      · exact Or.inl h
      · exact Or.inr ⟨p, List.mem_append_left _ hp, h⟩
  | ok stA =>
      simp only [forEach]
      by_cases hs : stA.m_SendPortSpike = ""
      · have hb1 : sendPortBody findAlias stA e1
            = .ok { stA with m_SendPortSpike := e1.portName } := by
          simp [sendPortBody, h1, hA, hs]
        rw [hb1]
        simp only []
        rw [forEach_append]
        cases hfb : forEach (sendPortBody findAlias) bs
            { stA with m_SendPortSpike := e1.portName } with
        | error e =>
            refine ⟨e, rfl, ?_⟩
            rcases forEach_sendPortBody_error findAlias bs _ e hfb with h | ⟨p, hp, h⟩
            · exact Or.inl h
            · exact Or.inr ⟨p, List.mem_append_right _ hp, h⟩
        | ok stB =>
            have hspike := (forEach_sendPortBody_ok findAlias bs _ stB hfb).2 hname
            have hne : stB.m_SendPortSpike ≠ "" := by rw [hspike]; exact hname
            refine ⟨.UnsupportedFeatureError, ?_, Or.inl rfl⟩
            simp [forEach, sendPortBody, h2, hA, hne]
      · refine ⟨.UnsupportedFeatureError, ?_, Or.inl rfl⟩
        simp [sendPortBody, h1, hA, hs]

theorem classifyPorts_of_send_error (findAlias : String → Option String)
    (children : List PortNode) (e : Error)
    (h : forEach (sendPortBody findAlias) (selectNodesHasSuffix "SendPort" children)
      PortClassification.init = .error e) :
    classifyPorts findAlias children = .error e := by
  simp [classifyPorts, h]

theorem loadComponentClass_ok (url : String) (componentClass : ComponentClass) :
    loadComponentClass url (.ok ⟨some ⟨some componentClass⟩⟩) =
      if componentClass.type ≠ "neuron_body" then .error (.SchemaErrorComponent url)
      else .ok componentClass := by
  simp [loadComponentClass]

/-! ## Claims about the port loops -/

/-- C4, as the code has it: a component that declares an event send port with a
non-empty name and, anywhere after it, another event send port (any other
ports around them) is never classified: the send port loop throws, so no build
of it succeeds and the later port never becomes the spike port. What is thrown
is the spike-like event error when every send port declared before the later
event send port is an analog or event send port; otherwise it is that error or
the unsupported port error of such an earlier send port. -/
theorem classifyPorts_two_eventSendPorts (ext : Collaborators) (params : ModelParams.Neuron)
    (pre mid post : List PortNode) (e1 e2 : PortNode)
    (h1 : e1.nodeType = "EventSendPort") (hname : e1.portName ≠ "")
    (h2 : e2.nodeType = "EventSendPort") :
    (∃ err, classifyPorts ext.findAlias (pre ++ e1 :: (mid ++ e2 :: post)) = .error err ∧
      (err = .UnsupportedFeatureError ∨
        ∃ p ∈ pre ++ mid, "SendPort".data.isSuffixOf p.nodeType.data = true ∧
          p.nodeType ≠ "AnalogSendPort" ∧ p.nodeType ≠ "EventSendPort" ∧
          err = .UnsupportedPortError p.nodeType "send")) ∧
    ((∀ p ∈ pre ++ mid, "SendPort".data.isSuffixOf p.nodeType.data = true →
        p.nodeType = "AnalogSendPort" ∨ p.nodeType = "EventSendPort") →
      classifyPorts ext.findAlias (pre ++ e1 :: (mid ++ e2 :: post))
        = .error .UnsupportedFeatureError) ∧
    (∀ type, ∃ err, NeuronModel.new ext
      (.ok ⟨some ⟨some ⟨type, pre ++ e1 :: (mid ++ e2 :: post)⟩⟩⟩) params = .error err) := by
  have hsel : selectNodesHasSuffix "SendPort" (pre ++ e1 :: (mid ++ e2 :: post))
      = selectNodesHasSuffix "SendPort" pre ++ e1 ::
          (selectNodesHasSuffix "SendPort" mid ++ e2 :: selectNodesHasSuffix "SendPort" post) := by
    rw [selectNodesHasSuffix_append, selectNodesHasSuffix_eventSendPort e1 _ h1,
      selectNodesHasSuffix_append, selectNodesHasSuffix_eventSendPort e2 _ h2]
  obtain ⟨err, herr, hkind⟩ := forEach_sendPortBody_two_events ext.findAlias
    (selectNodesHasSuffix "SendPort" pre) (selectNodesHasSuffix "SendPort" mid)
    (selectNodesHasSuffix "SendPort" post) e1 e2 PortClassification.init h1 hname h2
  rw [← hsel] at herr
  have hclass := classifyPorts_of_send_error ext.findAlias _ err herr
  have hkind' : err = .UnsupportedFeatureError ∨
      ∃ p ∈ pre ++ mid, "SendPort".data.isSuffixOf p.nodeType.data = true ∧
        p.nodeType ≠ "AnalogSendPort" ∧ p.nodeType ≠ "EventSendPort" ∧
        err = .UnsupportedPortError p.nodeType "send" := by
    rcases hkind with h | ⟨p, hp, he, hA, hE⟩
    · exact Or.inl h
    · refine Or.inr ⟨p, ?_, ?_, hA, hE, he⟩
      · rw [← selectNodesHasSuffix_append] at hp
        exact (List.mem_filter.mp hp).1
      · rw [← selectNodesHasSuffix_append] at hp
        simpa using (List.mem_filter.mp hp).2
  refine ⟨⟨err, hclass, hkind'⟩, ?_, ?_⟩
  · intro hall
    rcases hkind' with h | ⟨p, hp, hsuf, hA, hE, _⟩
    · rw [hclass, h]
    · rcases hall p hp hsuf with h | h
      · exact absurd h hA
      · exact absurd h hE
  · intro type
    unfold NeuronModel.new NeuronModel.beforePartition
    rw [loadComponentClass_ok]
    by_cases ht : type = "neuron_body"
    · exact ⟨err, by simp [ht, hclass]⟩
    · exact ⟨.SchemaErrorComponent params.url, by simp [ht]⟩

theorem classifyPorts_two_eventSendPorts_witness :
    classifyPorts (fun _ => none)
      ([⟨"AnalogSendPort", "V", ""⟩] ++ ⟨"EventSendPort", "spike", ""⟩ ::
        ([⟨"AnalogReducePort", "I", "+"⟩] ++ ⟨"EventSendPort", "burst", ""⟩ :: []))
      = .error .UnsupportedFeatureError :=
  (classifyPorts_two_eventSendPorts
    ⟨fun _ => none, [], .ok false, fun _ _ _ cs => .ok cs, fun _ _ cs => .ok cs,
      fun _ _ cs => cs, fun _ _ sim thr => .ok ([], [], sim, thr)⟩
    ⟨"model.xml", []⟩
    [⟨"AnalogSendPort", "V", ""⟩] [⟨"AnalogReducePort", "I", "+"⟩] []
    ⟨"EventSendPort", "spike", ""⟩ ⟨"EventSendPort", "burst", ""⟩
    rfl (by decide) rfl).2.1 (by decide)

/-- C4 as stated fails: with an unsupported send port declared between two
event send ports the classification throws the unsupported port error, not
the spike-like event error. -/
theorem classifyPorts_two_eventSendPorts_counterexample :
    classifyPorts (fun _ => none)
        [⟨"EventSendPort", "spike", ""⟩, ⟨"ImpulseSendPort", "x", ""⟩,
          ⟨"EventSendPort", "burst", ""⟩]
      = .error (.UnsupportedPortError "ImpulseSendPort" "send") ∧
    classifyPorts (fun _ => none)
        [⟨"EventSendPort", "spike", ""⟩, ⟨"ImpulseSendPort", "x", ""⟩,
          ⟨"EventSendPort", "burst", ""⟩]
      ≠ .error .UnsupportedFeatureError := by
  decide

/-- C10 fails on the code: the port list `EventSendPort ""`, `EventSendPort "b"`
is classified, with `b` as the spike port, while the same two declarations in
the other order make the classification throw. -/
theorem classifyPorts_order_dependent :
    List.Perm [(⟨"EventSendPort", "", ""⟩ : PortNode), ⟨"EventSendPort", "b", ""⟩]
      [⟨"EventSendPort", "b", ""⟩, ⟨"EventSendPort", "", ""⟩] ∧
    classifyPorts (fun _ => none) [⟨"EventSendPort", "", ""⟩, ⟨"EventSendPort", "b", ""⟩]
      = .ok { PortClassification.init with m_SendPortSpike := "b" } ∧
    classifyPorts (fun _ => none) [⟨"EventSendPort", "b", ""⟩, ⟨"EventSendPort", "", ""⟩]
      = .error .UnsupportedFeatureError :=
  ⟨List.Perm.swap _ _ _, by decide, by decide⟩

/-! ## Receive and reduce ports -/

theorem forEach_receivePortBody_ok (l : List PortNode) (st st' : PortClassification)
    (h : forEach receivePortBody l st = .ok st') :
    st' = { st with m_AdditionalInputVars :=
      st.m_AdditionalInputVars ++ l.map (fun p => (p.portName, "scalar", 0)) } := by
  induction l generalizing st with
  | nil =>
      simp only [forEach, Except.ok.injEq] at h
      simp [← h]
  | cons a t ih =>
      simp only [forEach, receivePortBody] at h
      by_cases ha : a.nodeType = "AnalogReceivePort"
      · simp only [ha, if_true] at h
        rw [ih _ h]
        simp
      · simp [ha] at h

theorem forEach_reducePortBody_ok (l : List PortNode) (st st' : PortClassification)
    (h : forEach reducePortBody l st = .ok st') :
    st' = { st with m_AdditionalInputVars :=
      st.m_AdditionalInputVars ++ l.map (fun p => (p.portName, "scalar", 0)) } := by
  induction l generalizing st with
  | nil =>
      simp only [forEach, Except.ok.injEq] at h
      simp [← h]
  | cons a t ih =>
      simp only [forEach, reducePortBody] at h
      by_cases ha : a.nodeType = "AnalogReducePort" ∧ a.reduce_op = "+"
      · simp only [ha, and_self, if_true] at h
        rw [ih _ h]
        simp
      · simp only [ha, if_false] at h
        exact Except.noConfusion h

theorem classifyPorts_ok (findAlias : String → Option String) (children : List PortNode)
    (c : PortClassification) (h : classifyPorts findAlias children = .ok c) :
    ∃ st, forEach (sendPortBody findAlias) (selectNodesHasSuffix "SendPort" children)
        PortClassification.init = .ok st ∧
      c = { st with m_AdditionalInputVars :=
        (selectNodesHasSuffix "ReceivePort" children).map (fun p => (p.portName, "scalar", 0)) ++
        (selectNodesHasSuffix "ReducePort" children).map (fun p => (p.portName, "scalar", 0)) } := by
  unfold classifyPorts at h
  cases hs : forEach (sendPortBody findAlias) (selectNodesHasSuffix "SendPort" children)
      PortClassification.init with
  | error e => simp [hs] at h
  | ok st1 =>
      cases hr : forEach receivePortBody (selectNodesHasSuffix "ReceivePort" children) st1 with
      | error e => simp [hs, hr] at h
      | ok st2 =>
          simp only [hs, hr] at h
          have h1 := (forEach_sendPortBody_ok findAlias _ _ st1 hs).1
          have h2 := forEach_receivePortBody_ok _ _ _ hr
          have h3 := forEach_reducePortBody_ok _ _ _ h
          refine ⟨st1, rfl, ?_⟩
          rw [h3, h2, h1]
          simp [PortClassification.init]

/-- C9: when the port loops succeed, the additional input variables are one
entry per receive port in declaration order followed by one entry per reduce
port in declaration order, each `(port name, "scalar", 0)`; their number is the
number of receive ports plus the number of reduce ports, and a successful
build stores exactly this sequence. -/
theorem additionalInputVars_of_classified (findAlias : String → Option String)
    (children : List PortNode) (c : PortClassification)
    (h : classifyPorts findAlias children = .ok c) :
    c.m_AdditionalInputVars =
      (selectNodesHasSuffix "ReceivePort" children).map (fun p => (p.portName, "scalar", 0)) ++
      (selectNodesHasSuffix "ReducePort" children).map (fun p => (p.portName, "scalar", 0)) ∧
    c.m_AdditionalInputVars.length =
      (selectNodesHasSuffix "ReceivePort" children).length +
      (selectNodesHasSuffix "ReducePort" children).length ∧
    (∀ x ∈ c.m_AdditionalInputVars, x.2 = ("scalar", 0)) ∧
    (∀ (ext : Collaborators) (type : String) (params : ModelParams.Neuron) (model : NeuronModel),
      ext.findAlias = findAlias →
      NeuronModel.new ext (.ok ⟨some ⟨some ⟨type, children⟩⟩⟩) params = .ok model →
      model.m_AdditionalInputVars = c.m_AdditionalInputVars) := by
  obtain ⟨st, _, hc⟩ := classifyPorts_ok findAlias children c h
  have hvars : c.m_AdditionalInputVars =
      (selectNodesHasSuffix "ReceivePort" children).map (fun p => (p.portName, "scalar", 0)) ++
      (selectNodesHasSuffix "ReducePort" children).map (fun p => (p.portName, "scalar", 0)) := by
    rw [hc]
  refine ⟨hvars, ?_, ?_, ?_⟩
  · rw [hvars]
    simp
  · intro x hx
    rw [hvars] at hx
    rcases List.mem_append.mp hx with hx | hx
    · obtain ⟨p, _, rfl⟩ := List.mem_map.mp hx
      rfl
    · obtain ⟨p, _, rfl⟩ := List.mem_map.mp hx
      rfl
  · intro ext type params model hfa hnew
    obtain ⟨b, hb, _, hvars', _⟩ := NeuronModel.new_ok ext _ params model hnew
    obtain ⟨cc, hload, hports, _⟩ := NeuronModel.beforePartition_ok ext _ params b hb
    rw [loadComponentClass_ok] at hload
    by_cases ht : type = "neuron_body"
    · simp only [ht, ne_eq, not_true_eq_false, if_false, Except.ok.injEq] at hload
      subst hload
      simp only [hfa] at hports
      rw [h] at hports
      simp only [Except.ok.injEq] at hports
      rw [hvars', ← hports]
    · simp [ht] at hload

theorem additionalInputVars_of_classified_witness :
    (PortClassification.mk [] [("V", ())] "spike" ""
      [("I_ext", "scalar", 0), ("I_syn", "scalar", 0)]).m_AdditionalInputVars.length = 1 + 1 :=
  (additionalInputVars_of_classified (fun _ => none)
    [⟨"AnalogReducePort", "I_syn", "+"⟩, ⟨"EventSendPort", "spike", ""⟩,
      ⟨"AnalogReceivePort", "I_ext", ""⟩, ⟨"AnalogSendPort", "V", ""⟩]
    ⟨[], [("V", ())], "spike", "", [("I_ext", "scalar", 0), ("I_syn", "scalar", 0)]⟩
    (by decide)).2.1

/-- C8: the classification of a single port declaration throws the unsupported
port error exactly when the port is a send port that is neither analog nor
event, a receive port that is not an analog receive port, or a reduce port
that is not an analog reduce port or whose `reduce_op` is not `+`; so an analog
reduce port with another operator, or with none, is rejected and yields no
additional input variable. -/
theorem classifyPorts_unsupported_iff (findAlias : String → Option String) (p : PortNode) :
    ((∃ e, classifyPorts findAlias [p] = .error e ∧ e.isUnsupportedPortError = true) ↔
      ("SendPort".data.isSuffixOf p.nodeType.data = true ∧
          p.nodeType ≠ "AnalogSendPort" ∧ p.nodeType ≠ "EventSendPort") ∨
      ("ReceivePort".data.isSuffixOf p.nodeType.data = true ∧
          p.nodeType ≠ "AnalogReceivePort") ∨
      ("ReducePort".data.isSuffixOf p.nodeType.data = true ∧
          (p.nodeType ≠ "AnalogReducePort" ∨ p.reduce_op ≠ "+"))) ∧
    (∀ e, classifyPorts findAlias [p] = .error e → e.isUnsupportedPortError = true) ∧
    (p.nodeType = "AnalogReducePort" → p.reduce_op ≠ "+" →
      classifyPorts findAlias [p] = .error (.UnsupportedPortError "AnalogReducePort" "reduce")) := by
  obtain ⟨ty, name, op⟩ := p
  have e1 : "SendPort".data.isSuffixOf "AnalogSendPort".data = true := by decide
  have e2 : "ReceivePort".data.isSuffixOf "AnalogSendPort".data = false := by decide
  have e3 : "ReducePort".data.isSuffixOf "AnalogSendPort".data = false := by decide
  have e4 : "SendPort".data.isSuffixOf "EventSendPort".data = true := by decide
  have e5 : "ReceivePort".data.isSuffixOf "EventSendPort".data = false := by decide
  have e6 : "ReducePort".data.isSuffixOf "EventSendPort".data = false := by decide
  have e7 : "SendPort".data.isSuffixOf "AnalogReceivePort".data = false := by decide
  have e8 : "ReceivePort".data.isSuffixOf "AnalogReceivePort".data = true := by decide
  have e9 : "ReducePort".data.isSuffixOf "AnalogReceivePort".data = false := by decide
  have e10 : "SendPort".data.isSuffixOf "AnalogReducePort".data = false := by decide
  have e11 : "ReceivePort".data.isSuffixOf "AnalogReducePort".data = false := by decide
  have e12 : "ReducePort".data.isSuffixOf "AnalogReducePort".data = true := by decide
  have n1 : ¬ ("EventSendPort" = "AnalogSendPort") := by decide
  have n2 : ¬ ("AnalogReceivePort" = "AnalogSendPort") := by decide
  have n3 : ¬ ("AnalogReceivePort" = "EventSendPort") := by decide
  have n4 : ¬ ("AnalogReducePort" = "AnalogSendPort") := by decide
  have n5 : ¬ ("AnalogReducePort" = "EventSendPort") := by decide
  have n6 : ¬ ("AnalogReducePort" = "AnalogReceivePort") := by decide
  have key : ∀ b : Bool, b = true ∨ b = false := fun b => by cases b <;> simp
  refine ⟨?_, ?_, ?_⟩
  · simp only
    by_cases hA : ty = "AnalogSendPort"
    · subst hA
      cases hf : findAlias name <;>
        simp [classifyPorts, selectNodesHasSuffix, List.filter, forEach, sendPortBody, hf,
          e1, e2, e3]
    · by_cases hE : ty = "EventSendPort"
      · subst hE
        simp [classifyPorts, selectNodesHasSuffix, List.filter, forEach, sendPortBody,
          e4, e5, e6, n1, PortClassification.init]
      · by_cases hRc : ty = "AnalogReceivePort"
        · subst hRc
          simp [classifyPorts, selectNodesHasSuffix, List.filter, forEach, receivePortBody,
            e7, e8, e9, n6]
        · by_cases hRd : ty = "AnalogReducePort"
          · subst hRd
            by_cases hop : op = "+"
            · simp [classifyPorts, selectNodesHasSuffix, List.filter, forEach, reducePortBody,
                e10, e11, e12, hop]
            · simp [classifyPorts, selectNodesHasSuffix, List.filter, forEach, reducePortBody,
                e10, e11, e12, hop, Error.isUnsupportedPortError]
          · rcases key ("SendPort".data.isSuffixOf ty.data) with hS | hS <;>
            rcases key ("ReceivePort".data.isSuffixOf ty.data) with hR | hR <;>
            rcases key ("ReducePort".data.isSuffixOf ty.data) with hD | hD <;>
              simp [classifyPorts, selectNodesHasSuffix, List.filter, forEach, sendPortBody,
                receivePortBody, reducePortBody, hA, hE, hRc, hRd, hS, hR, hD,
                Error.isUnsupportedPortError]
  · intro e
    by_cases hA : ty = "AnalogSendPort"
    · subst hA
      cases hf : findAlias name <;>
        simp [classifyPorts, selectNodesHasSuffix, List.filter, forEach, sendPortBody, hf,
          e1, e2, e3]
    · by_cases hE : ty = "EventSendPort"
      · subst hE
        simp [classifyPorts, selectNodesHasSuffix, List.filter, forEach, sendPortBody,
          e4, e5, e6, n1, PortClassification.init]
      · rcases key ("SendPort".data.isSuffixOf ty.data) with hS | hS <;>
        rcases key ("ReceivePort".data.isSuffixOf ty.data) with hR | hR <;>
        rcases key ("ReducePort".data.isSuffixOf ty.data) with hD | hD <;>
        by_cases hRc : ty = "AnalogReceivePort" <;>
        by_cases hRd : ty = "AnalogReducePort" ∧ op = "+" <;>
          simp [classifyPorts, selectNodesHasSuffix, List.filter, forEach, sendPortBody,
            receivePortBody, reducePortBody, hA, hE, hRc, hRd, hS, hR, hD] <;>
          (intro h; subst h; rfl)
  · intro hty hop
    simp only at hty hop
    subst hty
    simp [classifyPorts, selectNodesHasSuffix, List.filter, e10, e11, e12, forEach,
      reducePortBody, hop]

/-! ## Alias resolution -/

theorem foldl_append_eq_join (l : List String) (acc : String) :
    l.foldl (fun r s => r ++ s) acc = acc ++ String.join l := by
  induction l generalizing acc with
  | nil => simp [String.join]
  | cons a t ih =>
      have h1 : String.join (a :: t) = t.foldl (fun r s => r ++ s) ("" ++ a) := rfl
      rw [List.foldl_cons, ih, h1, ih, String.empty_append, String.append_assoc]

theorem aliasLoopBody_foldl_fst (l : List (String × String)) (st : CodeStream × StdSet String) :
    (l.foldl aliasLoopBody st).1 = st.1 ++ String.join (l.map aliasLine) := by
  induction l generalizing st with
  | nil => simp [String.join]
  | cons a t ih =>
      have h1 : String.join (aliasLine a :: t.map aliasLine)
          = (t.map aliasLine).foldl (fun r s => r ++ s) ("" ++ aliasLine a) := rfl
      have h2 : (";" : String) ++ "\n" = ";\n" := by decide
      rw [List.foldl_cons, ih, List.map_cons, h1, foldl_append_eq_join, String.empty_append]
      simp only [aliasLoopBody, aliasLine, String.append_assoc, h2]

theorem aliasLoopBody_foldl_snd (l : List (String × String)) (st : CodeStream × StdSet String)
    (x : String) :
    x ∈ StdMap.keys (l.foldl aliasLoopBody st).2 ↔ x ∈ StdMap.keys st.2 ∨ x ∈ StdMap.keys l := by
  induction l generalizing st with
  | nil => simp [StdMap.keys]
  | cons a t ih =>
      rw [List.foldl_cons, ih]
      simp only [aliasLoopBody, StdSet.insert, StdMap.mem_keys_insert]
      simp only [StdMap.keys, List.map_cons, List.mem_cons]
      tauto

theorem sendPortBody_aliases (findAlias : String → Option String) (st st' : PortClassification)
    (p : PortNode) (h : sendPortBody findAlias st p = .ok st') (hinv : AliasesInv findAlias st) :
    AliasesInv findAlias st' ∧ (∀ x ∈ st.sendPortAliases, x ∈ st'.sendPortAliases) ∧
    (p.nodeType = "AnalogSendPort" → ∀ e, findAlias p.portName = some e →
      (p.portName, e) ∈ st'.sendPortAliases) := by
  have hEA : ¬ ("EventSendPort" = "AnalogSendPort") := by decide
  unfold sendPortBody at h
  by_cases hA : p.nodeType = "AnalogSendPort"
  · simp only [hA, if_true] at h
    cases hf : findAlias p.portName with
    | none =>
        simp only [hf, Except.ok.injEq] at h
        subst h
        exact ⟨hinv, fun x hx => hx, fun _ e he => by simp at he⟩
    | some code =>
        simp only [hf, Except.ok.injEq] at h
        subst h
        refine ⟨⟨StdMap.insert_valid _ _ _ hinv.1, ?_⟩, ?_, ?_⟩
        · intro x hx
          rcases (StdMap.mem_insert _ _ _ x).mp hx with hx | ⟨_, hx⟩
          · exact hinv.2 x hx
          · rw [hx]; exact hf
        · intro x hx
          exact (StdMap.mem_insert _ _ _ x).mpr (Or.inl hx)
        · intro _ e he
          simp only [Option.some.injEq] at he
          subst he
          cases hb : (StdMap.insert st.sendPortAliases p.portName code).2 with
          | true => exact (StdMap.mem_insert _ _ _ _).mpr (Or.inr ⟨hb, rfl⟩)
          | false =>
              have hk := StdMap.mem_keys_of_not_inserted _ _ _ hb
              obtain ⟨y, hy, hyk⟩ := List.mem_map.mp hk
              have := hinv.2 y hy
              rw [hyk, hf, Option.some.injEq] at this
              refine (StdMap.mem_insert _ _ _ _).mpr (Or.inl ?_)
              rw [this, ← hyk]
              exact hy
  · by_cases hE : p.nodeType = "EventSendPort"
    · by_cases hs : st.m_SendPortSpike = ""
      · simp only [hE, hEA, hs, if_true, if_false, Except.ok.injEq] at h
        subst h
        exact ⟨hinv, fun x hx => hx, fun h => absurd (hE.symm.trans h) hEA⟩
      · simp [hE, hEA, hs] at h
    · simp [hA, hE] at h

theorem forEach_sendPortBody_aliases (findAlias : String → Option String) (l : List PortNode)
    (st st' : PortClassification) (h : forEach (sendPortBody findAlias) l st = .ok st')
    (hinv : AliasesInv findAlias st) :
    AliasesInv findAlias st' ∧ (∀ x ∈ st.sendPortAliases, x ∈ st'.sendPortAliases) ∧
    (∀ p ∈ l, p.nodeType = "AnalogSendPort" → ∀ e, findAlias p.portName = some e →
      (p.portName, e) ∈ st'.sendPortAliases) := by
  induction l generalizing st with
  | nil =>
      simp only [forEach, Except.ok.injEq] at h
      subst h
      exact ⟨hinv, fun x hx => hx, fun p hp => by simp at hp⟩
  | cons a t ih =>
      simp only [forEach] at h
      cases hb : sendPortBody findAlias st a with
      | error e => simp [hb] at h
      | ok st1 =>
          rw [hb] at h
          have h1 := sendPortBody_aliases findAlias st st1 a hb hinv
          have h2 := ih st1 h h1.1
          refine ⟨h2.1, fun x hx => h2.2.1 x (h1.2.1 x hx), ?_⟩
          intro p hp hA e he
          rcases List.mem_cons.mp hp with hp | hp
          · subst hp
            exact h2.2.1 _ (h1.2.2 hA e he)
          · exact h2.2.2 p hp hA e he

/-- C5: in every successful build the simulation code handed to
`processModelVariables` is the code the traversal left in the stream followed
only by the alias assignment lines, one per entry of `sendPortAliases`, whose
entries are port names with the alias found for them; for an analog send port
`p` of the component with alias `e` exactly one entry is for `p`, it is
`(p, e)` with line `p = e;`, and `p` is in the variable set handed to
`processModelVariables` together with every variable of the model parameters. -/
theorem aliasResolution_of_build (ext : Collaborators) (file : Except String XmlDocument)
    (params : ModelParams.Neuron) (model : NeuronModel)
    (h : NeuronModel.new ext file params = .ok model) :
    ∃ b componentClass,
      NeuronModel.beforePartition ext file params = .ok b ∧
      loadComponentClass params.url file = .ok componentClass ∧
      runVisits ext ext.visits "" ⟨[], b.ports.m_SendPortSpike⟩
        = .ok (b.traversalCode, b.handler) ∧
      ext.processModelVariables b.variableParams b.multipleRegimes b.simCode
          b.thresholdConditionCode
        = .ok (model.m_ParamNames, model.m_Vars, model.m_SimCode,
            model.m_ThresholdConditionCode) ∧
      b.simCode = b.traversalCode ++ String.join (b.ports.sendPortAliases.map aliasLine) ∧
      (∀ x ∈ b.ports.sendPortAliases, ext.findAlias x.1 = some x.2) ∧
      (∀ v ∈ StdMap.keys params.variableParams, v ∈ StdMap.keys b.variableParams) ∧
      ∀ port ∈ componentClass.children, port.nodeType = "AnalogSendPort" →
        ∀ e, ext.findAlias port.portName = some e →
          (port.portName, e) ∈ b.ports.sendPortAliases ∧
          (StdMap.keys b.ports.sendPortAliases).count port.portName = 1 ∧
          aliasLine (port.portName, e) = port.portName ++ " = " ++ e ++ ";\n" ∧
          port.portName ∈ StdMap.keys b.variableParams := by
  obtain ⟨b, hb, hproc, _⟩ := NeuronModel.new_ok ext file params model h
  obtain ⟨cc, hload, hports, hrun, _, _, hsim, hvars⟩ :=
    NeuronModel.beforePartition_ok ext file params b hb
  obtain ⟨st, hsend, hc⟩ := classifyPorts_ok ext.findAlias cc.children b.ports hports
  have hinit : AliasesInv ext.findAlias PortClassification.init :=
    ⟨List.Pairwise.nil, fun x hx => by simp [PortClassification.init] at hx⟩
  have hal := forEach_sendPortBody_aliases ext.findAlias _ _ st hsend hinit
  have hst : b.ports.sendPortAliases = st.sendPortAliases := by rw [hc]
  refine ⟨b, cc, hb, hload, hrun, hproc, ?_, ?_, ?_, ?_⟩
  · rw [hsim, aliasLoopBody_foldl_fst]
  · rw [hst]
    exact hal.1.2
  · intro v hv
    rw [hvars]
    exact (aliasLoopBody_foldl_snd _ _ v).mpr (Or.inl hv)
  · intro port hport hA e he
    have hsuf : "SendPort".data.isSuffixOf "AnalogSendPort".data = true := by decide
    have hmem : port ∈ selectNodesHasSuffix "SendPort" cc.children :=
      List.mem_filter.mpr ⟨hport, by simp [hA, hsuf]⟩
    have hentry : (port.portName, e) ∈ b.ports.sendPortAliases := by
      rw [hst]
      exact hal.2.2 port hmem hA e he
    have hkey : port.portName ∈ StdMap.keys b.ports.sendPortAliases :=
      List.mem_map.mpr ⟨_, hentry, rfl⟩
    refine ⟨hentry, ?_, rfl, ?_⟩
    · have hvalid : StdMap.Valid b.ports.sendPortAliases := by rw [hst]; exact hal.1.1
      exact List.count_eq_one_of_mem hvalid.nodup_keys hkey
    · rw [hvars]
      exact (aliasLoopBody_foldl_snd _ _ _).mpr (Or.inr hkey)

theorem exampleModel_built :
    NeuronModel.new exampleCollaborators (.ok exampleDocument) exampleParams
      = .ok exampleModel := by
  have hlt : ("I_syn" : String) < "V" := by
    rw [String.lt_iff_toList_lt]
    decide
  have hports : classifyPorts exampleCollaborators.findAlias
      [⟨"EventSendPort", "spike", ""⟩, ⟨"AnalogSendPort", "I_syn", ""⟩,
        ⟨"AnalogReducePort", "I_ext", "+"⟩]
      = .ok ⟨[("I_syn", "g*(E-V)")], [("I_syn", ())], "spike", "", [("I_ext", "scalar", 0)]⟩ := by
    decide
  have hrun : runVisits exampleCollaborators exampleCollaborators.visits "" ⟨[], "spike"⟩
      = .ok ("", ⟨[(0, "V > 30")], "spike"⟩) := by
    decide
  have hthr : (ObjectHandlerNeuronCondition.mk [(0, "V > 30")] "spike").getThresholdCode true
      = .ok "(_regimeID == 0 && (V > 30))" := by
    decide
  have hsim : ("" : String) ++ "I_syn" ++ " = " ++ "g*(E-V)" ++ ";" ++ "\n"
      = "I_syn = g*(E-V);\n" := by
    decide
  have hins : StdSet.insert [("V", ())] "I_syn" = [("I_syn", ()), ("V", ())] := by
    simp [StdSet.insert, StdMap.insert, hlt]
  have htrav : exampleCollaborators.traversalResult = .ok true := rfl
  have hload : loadComponentClass exampleParams.url (.ok exampleDocument)
      = .ok ⟨"neuron_body", [⟨"EventSendPort", "spike", ""⟩, ⟨"AnalogSendPort", "I_syn", ""⟩,
          ⟨"AnalogReducePort", "I_ext", "+"⟩]⟩ := by
    decide
  have hvars : exampleParams.variableParams = [("V", ())] := rfl
  simp only [NeuronModel.new, NeuronModel.beforePartition, hload, hports, hrun, hthr, htrav,
    hvars, List.foldl_cons, List.foldl_nil, aliasLoopBody, hsim, hins]
  rfl

theorem aliasResolution_of_build_witness :
    ∃ b, NeuronModel.beforePartition exampleCollaborators (.ok exampleDocument) exampleParams
        = .ok b ∧
      b.simCode = b.traversalCode ++ String.join (b.ports.sendPortAliases.map aliasLine) ∧
      (∀ v ∈ StdMap.keys exampleParams.variableParams, v ∈ StdMap.keys b.variableParams) := by
  obtain ⟨b, _, hb, _, _, _, hsim, _, hvars, _⟩ :=
    aliasResolution_of_build exampleCollaborators (.ok exampleDocument) exampleParams
      exampleModel exampleModel_built
  exact ⟨b, hb, hsim, hvars⟩

/-! ## Order of the port declarations -/

theorem StdMap.mem_insert_of_valid {κ V : Type} [LinearOrder κ] (m : StdMap κ V) (k : κ) (v : V)
    (hm : StdMap.Valid m) (x : κ × V) :
    x ∈ (StdMap.insert m k v).1 ↔ x ∈ m ∨ (k ∉ StdMap.keys m ∧ x = (k, v)) := by
  rw [StdMap.mem_insert, StdMap.inserted_iff m k v hm]

theorem StdMap.insert_comm {κ V : Type} [LinearOrder κ] (m : StdMap κ V) (hm : StdMap.Valid m)
    (k1 k2 : κ) (v1 v2 : V) (hv : k1 = k2 → v1 = v2) :
    (StdMap.insert (StdMap.insert m k1 v1).1 k2 v2).1
      = (StdMap.insert (StdMap.insert m k2 v2).1 k1 v1).1 := by
  have hv1 := StdMap.insert_valid m k1 v1 hm
  have hv2 := StdMap.insert_valid m k2 v2 hm
  have hl := StdMap.insert_valid _ k2 v2 hv1
  have hr := StdMap.insert_valid _ k1 v1 hv2
  refine StdMap.Valid.eq_of_perm hl hr ?_
  refine (List.perm_ext_iff_of_nodup (List.Nodup.of_map _ hl.nodup_keys)
    (List.Nodup.of_map _ hr.nodup_keys)).mpr ?_
  intro x
  rw [StdMap.mem_insert_of_valid _ k2 v2 hv1, StdMap.mem_insert_of_valid _ k1 v1 hv2,
    StdMap.mem_insert_of_valid _ k1 v1 hm, StdMap.mem_insert_of_valid _ k2 v2 hm,
    StdMap.mem_keys_insert, StdMap.mem_keys_insert]
  by_cases h : k1 = k2
  · have := hv h
    subst h
    subst this
    tauto
  · have h' : ¬ k2 = k1 := fun e => h e.symm
    simp only [h, h', false_or]
    tauto

theorem SameOutcome.refl (x : Except Error PortClassification) : SameOutcome x x := by
  cases x <;> simp [SameOutcome]

theorem SameOutcome.trans {x y z : Except Error PortClassification}
    (h1 : SameOutcome x y) (h2 : SameOutcome y z) : SameOutcome x z := by
  cases x <;> cases y <;> cases z <;> simp_all [SameOutcome]

theorem sendPortBody_inv (findAlias : String → Option String) (st st' : PortClassification)
    (p : PortNode) (h : sendPortBody findAlias st p = .ok st') (hinv : SendInv findAlias st) :
    SendInv findAlias st' := by
  refine ⟨(sendPortBody_aliases findAlias st st' p h hinv.1).1, ?_⟩
  have hEA : ¬ ("EventSendPort" = "AnalogSendPort") := by decide
  unfold sendPortBody at h
  by_cases hA : p.nodeType = "AnalogSendPort"
  · simp only [hA, if_true] at h
    cases hf : findAlias p.portName with
    | none =>
        simp only [hf, Except.ok.injEq] at h
        subst h
        exact StdMap.insert_valid _ _ _ hinv.2
    | some code =>
        simp only [hf, Except.ok.injEq] at h
        subst h
        exact StdMap.insert_valid _ _ _ hinv.2
  · by_cases hE : p.nodeType = "EventSendPort"
    · by_cases hs : st.m_SendPortSpike = ""
      · simp only [hE, hEA, hs, if_true, if_false, Except.ok.injEq] at h
        subst h
        exact hinv.2
      · simp [hE, hEA, hs] at h
    · simp [hA, hE] at h

/-- Two successive passes of the send port loop end alike in either order,
provided an event send port has a non-empty name. -/
theorem sendPortBody_comm (findAlias : String → Option String) (st : PortClassification)
    (hinv : SendInv findAlias st) (a b : PortNode)
    (ha : a.nodeType = "EventSendPort" → a.portName ≠ "")
    (hb : b.nodeType = "EventSendPort" → b.portName ≠ "") :
    SameOutcome (forEach (sendPortBody findAlias) [a, b] st)
      (forEach (sendPortBody findAlias) [b, a] st) := by
  have hEA : ¬ ("EventSendPort" = "AnalogSendPort") := by decide
  obtain ⟨ta, na, oa⟩ := a
  obtain ⟨tb, nb, ob⟩ := b
  obtain ⟨al, vars, spike, sle, add⟩ := st
  obtain ⟨⟨hal, hfa⟩, hvars⟩ := hinv
  simp only at ha hb hal hfa hvars
  have hset := StdMap.insert_comm vars hvars na nb () () (fun _ => rfl)
  by_cases hAa : ta = "AnalogSendPort"
  · subst hAa
    by_cases hAb : tb = "AnalogSendPort"
    · subst hAb
      cases hfa1 : findAlias na <;> cases hfb1 : findAlias nb
      · simp [forEach, sendPortBody, SameOutcome, hfa1, hfb1, StdSet.insert, hset]
      · simp [forEach, sendPortBody, SameOutcome, hfa1, hfb1, StdSet.insert, hset]
      · simp [forEach, sendPortBody, SameOutcome, hfa1, hfb1, StdSet.insert, hset]
      · rename_i ca cb
        have hmap := StdMap.insert_comm al hal na nb ca cb (fun e => by
          rw [e, hfb1] at hfa1
          exact (Option.some.inj hfa1).symm)
        simp [forEach, sendPortBody, SameOutcome, hfa1, hfb1, StdSet.insert, hset, hmap]
    · by_cases hEb : tb = "EventSendPort"
      · subst hEb
        by_cases hs : spike = "" <;> cases hfa1 : findAlias na <;>
          simp [forEach, sendPortBody, SameOutcome, hfa1, hs, hEA]
      · cases hfa1 : findAlias na <;>
          simp [forEach, sendPortBody, SameOutcome, hfa1, hAb, hEb]
  · by_cases hEa : ta = "EventSendPort"
    · subst hEa
      have hna : na ≠ "" := ha rfl
      by_cases hAb : tb = "AnalogSendPort"
      · subst hAb
        by_cases hs : spike = "" <;> cases hfb1 : findAlias nb <;>
          simp [forEach, sendPortBody, SameOutcome, hfb1, hs, hEA]
      · by_cases hEb : tb = "EventSendPort"
        · subst hEb
          have hnb : nb ≠ "" := hb rfl
          by_cases hs : spike = "" <;>
            simp [forEach, sendPortBody, SameOutcome, hs, hEA, hna, hnb]
        · by_cases hs : spike = "" <;>
            simp [forEach, sendPortBody, SameOutcome, hs, hEA, hAb, hEb]
    · by_cases hAb : tb = "AnalogSendPort"
      · subst hAb
        cases hfb1 : findAlias nb <;>
          simp [forEach, sendPortBody, SameOutcome, hfb1, hAa, hEa]
      · by_cases hEb : tb = "EventSendPort"
        · subst hEb
          by_cases hs : spike = "" <;>
            simp [forEach, sendPortBody, SameOutcome, hs, hEA, hAa, hEa]
        · simp [forEach, sendPortBody, SameOutcome, hAa, hEa, hAb, hEb]

theorem forEach_sendPortBody_perm (findAlias : String → Option String) {l1 l2 : List PortNode}
    (hperm : l1.Perm l2) :
    (∀ p ∈ l1, p.nodeType = "EventSendPort" → p.portName ≠ "") →
    ∀ st, SendInv findAlias st →
      SameOutcome (forEach (sendPortBody findAlias) l1 st)
        (forEach (sendPortBody findAlias) l2 st) := by
  induction hperm with
  | nil => intro _ st _; exact SameOutcome.refl _
  | cons x _ ih =>
      intro hn st hinv
      simp only [forEach]
      cases hb : sendPortBody findAlias st x with
      | error e => simp [SameOutcome]
      | ok st' =>
          exact ih (fun p hp => hn p (List.mem_cons_of_mem _ hp)) st'
            (sendPortBody_inv findAlias st st' x hb hinv)
  | swap x y l =>
      intro hn st hinv
      have hc := sendPortBody_comm findAlias st hinv y x (hn y (by simp)) (hn x (by simp))
      have e1 : y :: x :: l = [y, x] ++ l := rfl
      have e2 : x :: y :: l = [x, y] ++ l := rfl
      rw [e1, e2, forEach_append, forEach_append]
      cases h1 : forEach (sendPortBody findAlias) [y, x] st with
      | error e1 =>
          cases h2 : forEach (sendPortBody findAlias) [x, y] st with
          | error e2 => simp [SameOutcome]
          | ok s2 =>
              rw [h1, h2] at hc
              simp [SameOutcome] at hc
      | ok s1 =>
          cases h2 : forEach (sendPortBody findAlias) [x, y] st with
          | error e2 =>
              rw [h1, h2] at hc
              simp [SameOutcome] at hc
          | ok s2 =>
              rw [h1, h2] at hc
              simp only [SameOutcome] at hc
              subst hc
              exact SameOutcome.refl _
  | trans h1 _ ih1 ih2 =>
      intro hn st hinv
      exact (ih1 hn st hinv).trans (ih2 (fun p hp => hn p (h1.mem_iff.mpr hp)) st hinv)

theorem forEach_receivePortBody_isOk (l : List PortNode) (st : PortClassification) :
    (∃ st', forEach receivePortBody l st = .ok st') ↔
      ∀ p ∈ l, p.nodeType = "AnalogReceivePort" := by
  induction l generalizing st with
  | nil => simp [forEach]
  | cons a t ih =>
      simp only [forEach, receivePortBody, List.mem_cons, forall_eq_or_imp]
      by_cases ha : a.nodeType = "AnalogReceivePort"
      · simp only [ha, if_true, true_and]
        exact ih _
      · simp [ha]

theorem forEach_reducePortBody_isOk (l : List PortNode) (st : PortClassification) :
    (∃ st', forEach reducePortBody l st = .ok st') ↔
      ∀ p ∈ l, p.nodeType = "AnalogReducePort" ∧ p.reduce_op = "+" := by
  induction l generalizing st with
  | nil => simp [forEach]
  | cons a t ih =>
      simp only [forEach, reducePortBody, List.mem_cons, forall_eq_or_imp]
      by_cases ha : a.nodeType = "AnalogReducePort" ∧ a.reduce_op = "+"
      · simp only [ha, and_self, if_true, true_and]
        exact ih _
      · simp [ha]

theorem classifyPorts_isOk_iff (findAlias : String → Option String) (children : List PortNode) :
    (∃ c, classifyPorts findAlias children = .ok c) ↔
      (∃ st, forEach (sendPortBody findAlias) (selectNodesHasSuffix "SendPort" children)
        PortClassification.init = .ok st) ∧
      (∀ p ∈ selectNodesHasSuffix "ReceivePort" children, p.nodeType = "AnalogReceivePort") ∧
      (∀ p ∈ selectNodesHasSuffix "ReducePort" children,
        p.nodeType = "AnalogReducePort" ∧ p.reduce_op = "+") := by
  unfold classifyPorts
  cases hs : forEach (sendPortBody findAlias) (selectNodesHasSuffix "SendPort" children)
      PortClassification.init with
  | error e => simp
  | ok st1 =>
      rw [← forEach_receivePortBody_isOk _ st1]
      cases hr : forEach receivePortBody (selectNodesHasSuffix "ReceivePort" children) st1 with
      | error e => simp [hr]
      | ok st2 =>
          rw [← forEach_reducePortBody_isOk _ st2]
          simp [hr]

/-- Order-independence of the port loops where the code has it: when no event
send port has an empty name, a permutation of the port declarations is
classified exactly when the original is, with the same alias map, the same
send port set, the same spike port and the same additional input variables up
to their order. -/
theorem classifyPorts_perm (findAlias : String → Option String) (l1 l2 : List PortNode)
    (hperm : l1.Perm l2)
    (hnames : ∀ p ∈ l1, p.nodeType = "EventSendPort" → p.portName ≠ "") :
    ((∃ c, classifyPorts findAlias l1 = .ok c) ↔ (∃ c, classifyPorts findAlias l2 = .ok c)) ∧
    ∀ c1 c2, classifyPorts findAlias l1 = .ok c1 → classifyPorts findAlias l2 = .ok c2 →
      c1.sendPortAliases = c2.sendPortAliases ∧
      c1.m_SendPortVariables = c2.m_SendPortVariables ∧
      c1.m_SendPortSpike = c2.m_SendPortSpike ∧
      c1.m_SendPortSpikeLikeEvent = c2.m_SendPortSpikeLikeEvent ∧
      c1.m_AdditionalInputVars.Perm c2.m_AdditionalInputVars := by
  have hinit : SendInv findAlias PortClassification.init :=
    ⟨⟨List.Pairwise.nil, fun x hx => by simp [PortClassification.init] at hx⟩,
      List.Pairwise.nil⟩
  have hsend := forEach_sendPortBody_perm findAlias
    (List.Perm.filter (fun n => "SendPort".data.isSuffixOf n.nodeType.data) hperm)
    (fun p hp => hnames p (List.mem_filter.mp hp).1) PortClassification.init hinit
  have hrecv := List.Perm.filter (fun n : PortNode => "ReceivePort".data.isSuffixOf n.nodeType.data)
    hperm
  have hred := List.Perm.filter (fun n : PortNode => "ReducePort".data.isSuffixOf n.nodeType.data)
    hperm
  constructor
  · rw [classifyPorts_isOk_iff, classifyPorts_isOk_iff]
    have h1 : (∃ st, forEach (sendPortBody findAlias) (selectNodesHasSuffix "SendPort" l1)
          PortClassification.init = .ok st) ↔
        (∃ st, forEach (sendPortBody findAlias) (selectNodesHasSuffix "SendPort" l2)
          PortClassification.init = .ok st) := by
      unfold selectNodesHasSuffix
      cases ha : forEach (sendPortBody findAlias)
          (List.filter (fun n => "SendPort".data.isSuffixOf n.nodeType.data) l1)
          PortClassification.init <;>
        cases hb : forEach (sendPortBody findAlias)
          (List.filter (fun n => "SendPort".data.isSuffixOf n.nodeType.data) l2)
          PortClassification.init <;>
        rw [ha, hb] at hsend <;> simp [SameOutcome] at hsend ⊢
    have h2 : (∀ p ∈ selectNodesHasSuffix "ReceivePort" l1, p.nodeType = "AnalogReceivePort") ↔
        (∀ p ∈ selectNodesHasSuffix "ReceivePort" l2, p.nodeType = "AnalogReceivePort") :=
      ⟨fun h p hp => h p (hrecv.mem_iff.mpr hp), fun h p hp => h p (hrecv.mem_iff.mp hp)⟩
    have h3 : (∀ p ∈ selectNodesHasSuffix "ReducePort" l1,
          p.nodeType = "AnalogReducePort" ∧ p.reduce_op = "+") ↔
        (∀ p ∈ selectNodesHasSuffix "ReducePort" l2,
          p.nodeType = "AnalogReducePort" ∧ p.reduce_op = "+") :=
      ⟨fun h p hp => h p (hred.mem_iff.mpr hp), fun h p hp => h p (hred.mem_iff.mp hp)⟩
    rw [h1, h2, h3]
  · intro c1 c2 hc1 hc2
    obtain ⟨st1, hs1, e1⟩ := classifyPorts_ok findAlias l1 c1 hc1
    obtain ⟨st2, hs2, e2⟩ := classifyPorts_ok findAlias l2 c2 hc2
    unfold selectNodesHasSuffix at hs1 hs2
    rw [hs1, hs2] at hsend
    simp only [SameOutcome] at hsend
    subst hsend
    rw [e1, e2]
    refine ⟨rfl, rfl, rfl, rfl, ?_⟩
    exact List.Perm.append (List.Perm.map _ hrecv) (List.Perm.map _ hred)

end SpineMLGenerator
